import Mathlib

/-!
Shallow embedding of the GPTorio simulation core (`gameLogic` module):
world data model, per-tick update (`stepGame`), placement (`placeBuilding`,
`canAffordBuild`) and snapshot normalization (`normalizeState`), translated
definition-by-definition from the TypeScript source, together with proofs of
the specified properties.
-/

namespace GPTorio

/-- `Direction`: one of up / right / down / left. -/
inductive Direction where
  | up
  | right
  | down
  | left
deriving DecidableEq

/-- `TerrainType`: "empty" | "iron" | "copper". -/
inductive TerrainType where
  | empty
  | iron
  | copper
deriving DecidableEq

/-- `BuildingType`: the seven placeable building kinds. -/
inductive BuildingType where
  | mine
  | belt
  | furnace
  | assembler
  | wireMill
  | hub
  | chest
deriving DecidableEq

/-- `ItemType`: the closed set of six item kinds. -/
inductive ItemType where
  | ironOre
  | copperOre
  | ironPlate
  | copperPlate
  | gear
  | wire
deriving DecidableEq

/-- A total `Record<ItemType, number>`: all six kinds always present. -/
structure Buf where
  ironOre : Nat
  copperOre : Nat
  ironPlate : Nat
  copperPlate : Nat
  gear : Nat
  wire : Nat
deriving DecidableEq

/-- Read one slot of a buffer / inventory record. -/
def Buf.get (b : Buf) : ItemType → Nat
  | .ironOre => b.ironOre
  | .copperOre => b.copperOre
  | .ironPlate => b.ironPlate
  | .copperPlate => b.copperPlate
  | .gear => b.gear
  | .wire => b.wire

/-- `record[it] += n` on a buffer / inventory record. -/
def Buf.add (b : Buf) (it : ItemType) (n : Nat) : Buf :=
  match it with
  | .ironOre => { b with ironOre := b.ironOre + n }
  | .copperOre => { b with copperOre := b.copperOre + n }
  | .ironPlate => { b with ironPlate := b.ironPlate + n }
  | .copperPlate => { b with copperPlate := b.copperPlate + n }
  | .gear => { b with gear := b.gear + n }
  | .wire => { b with wire := b.wire + n }

/-- `record[it] -= n` on a buffer / inventory record (the source only
subtracts under a guard that the slot holds at least `n`). -/
def Buf.sub (b : Buf) (it : ItemType) (n : Nat) : Buf :=
  match it with
  | .ironOre => { b with ironOre := b.ironOre - n }
  | .copperOre => { b with copperOre := b.copperOre - n }
  | .ironPlate => { b with ironPlate := b.ironPlate - n }
  | .copperPlate => { b with copperPlate := b.copperPlate - n }
  | .gear => { b with gear := b.gear - n }
  | .wire => { b with wire := b.wire - n }

/-- `createBuffer()`: the all-zero record. -/
def createBuffer : Buf :=
  { ironOre := 0, copperOre := 0, ironPlate := 0, copperPlate := 0, gear := 0, wire := 0 }

/-- `Building`: type tag, facing direction, progress counter, input buffer.
(The TS field `type` is rendered `btype`, `type` being a Lean keyword.) -/
structure Building where
  btype : BuildingType
  dir : Direction
  progress : Nat
  buffer : Buf
deriving DecidableEq

/-- `Tile`: terrain, remaining resource, optional building.  `resource` is an
integer because the source clamps `resource <= 0` after decrementing. -/
structure Tile where
  terrain : TerrainType
  resource : Int
  building : Option Building
deriving DecidableEq

/-- `Item = { type: ItemType }` is a one-field wrapper; a ground-item cell is
embedded as `Option ItemType`. -/
abbrev ItemGrid := List (List (Option ItemType))

abbrev TileGrid := List (List Tile)

/-- The six production statistics counters. -/
structure Stats where
  ironMined : Nat
  copperMined : Nat
  ironPlates : Nat
  copperPlates : Nat
  gearsCrafted : Nat
  wiresCrafted : Nat
deriving DecidableEq

/-- `GameState`: the whole world. -/
structure GameState where
  width : Nat
  height : Nat
  tick : Nat
  tiles : TileGrid
  items : ItemGrid
  inventory : Buf
  stats : Stats
deriving DecidableEq

/-- `Tool = BuildingType | "erase"`. -/
inductive Tool where
  | build : BuildingType → Tool
  | erase
deriving DecidableEq

def MINE_TICKS : Nat := 4
def FURNACE_TICKS : Nat := 6
def ASSEMBLER_TICKS : Nat := 8
def WIRE_MILL_TICKS : Nat := 5

/-- `DIRECTIONS = ["up", "right", "down", "left"]`. -/
def DIRECTIONS : List Direction := [.up, .right, .down, .left]

/-- `stepInDir(x, y, dir)`. -/
def stepInDir (x y : Int) : Direction → Int × Int
  | .up => (x, y - 1)
  | .right => (x + 1, y)
  | .down => (x, y + 1)
  | .left => (x - 1, y)

/-- `inBounds(state, x, y)`. -/
def inBounds (s : GameState) (x y : Int) : Bool :=
  decide (0 ≤ x) && decide (0 ≤ y) && decide (x < (s.width : Int)) &&
    decide (y < (s.height : Int))

/-- `grid[y][x]` on a row-major 2D array. -/
def cell {α : Type} (g : List (List α)) (x y : Nat) (d : α) : α :=
  (g.getD y []).getD x d

/-- `grid[y][x] = v` on a row-major 2D array. -/
def setCell {α : Type} (g : List (List α)) (x y : Nat) (v : α) : List (List α) :=
  g.set y ((g.getD y []).set x v)

/-- Default tile used by the (always bounds-guarded) grid read. -/
def defaultTile : Tile := { terrain := .empty, resource := 0, building := none }

/-- `state.tiles[y][x]` (every use in the source is bounds-guarded). -/
def tileAt (s : GameState) (x y : Int) : Tile :=
  cell s.tiles x.toNat y.toNat defaultTile

/-- `grid[y][x]` on an item grid. -/
def gridGet (g : ItemGrid) (x y : Int) : Option ItemType :=
  cell g x.toNat y.toNat none

/-- `grid[y][x] = v` on an item grid. -/
def gridSet (g : ItemGrid) (x y : Int) (v : Option ItemType) : ItemGrid :=
  setCell g x.toNat y.toNat v

/-- `state.items[y][x]`. -/
def itemAt (s : GameState) (x y : Int) : Option ItemType :=
  gridGet s.items x y

/-- `state.items[y][x] = v`. -/
def setItem (s : GameState) (x y : Int) (v : Option ItemType) : GameState :=
  { s with items := gridSet s.items x y v }

/-- `state.tiles[y][x] = t`. -/
def setTile (s : GameState) (x y : Int) (t : Tile) : GameState :=
  { s with tiles := setCell s.tiles x.toNat y.toNat t }

/-- Write through the `building` alias of `state.tiles[y][x]`. -/
def setBuilding (s : GameState) (x y : Int) (b : Building) : GameState :=
  setTile s x y { tileAt s x y with building := some b }

/-- `canPlaceItem(state, x, y)`: in bounds, no non-belt building, no item. -/
def canPlaceItem (s : GameState) (x y : Int) : Bool :=
  inBounds s x y &&
    (match (tileAt s x y).building with
     | some b => decide (b.btype = .belt)
     | none => true) &&
    decide (itemAt s x y = none)

/-- The loop of `findNeighborItem`-style scans over `DIRECTIONS`, returning
the first in-bounds neighbor whose ground item satisfies `p`. -/
def findNeighborAux (s : GameState) (x y : Int) (p : ItemType → Bool) :
    List Direction → Option (Int × Int)
  | [] => none
  | d :: ds =>
    let c := stepInDir x y d
    if inBounds s c.1 c.2 then
      match itemAt s c.1 c.2 with
      | some it => if p it then some c else findNeighborAux s x y p ds
      | none => findNeighborAux s x y p ds
    else findNeighborAux s x y p ds

/-- `findNeighborItem(state, x, y, type)`. -/
def findNeighborItem (s : GameState) (x y : Int) (t : ItemType) : Option (Int × Int) :=
  findNeighborAux s x y (fun it => it = t) DIRECTIONS

/-- `findNeighborItemByTypes(state, x, y, types)`. -/
def findNeighborItemByTypes (s : GameState) (x y : Int) (ts : List ItemType) :
    Option (Int × Int) :=
  findNeighborAux s x y (fun it => it ∈ ts) DIRECTIONS

/-- `findNeighborItemAny(state, x, y)`. -/
def findNeighborItemAny (s : GameState) (x y : Int) : Option (Int × Int) :=
  findNeighborAux s x y (fun _ => true) DIRECTIONS

/-- Increment one stats counter the way each production branch does. -/
def bumpIronMined (s : GameState) : GameState :=
  { s with stats := { s.stats with ironMined := s.stats.ironMined + 1 } }

def bumpCopperMined (s : GameState) : GameState :=
  { s with stats := { s.stats with copperMined := s.stats.copperMined + 1 } }

def bumpIronPlates (s : GameState) : GameState :=
  { s with stats := { s.stats with ironPlates := s.stats.ironPlates + 1 } }

def bumpCopperPlates (s : GameState) : GameState :=
  { s with stats := { s.stats with copperPlates := s.stats.copperPlates + 1 } }

def bumpGearsCrafted (s : GameState) : GameState :=
  { s with stats := { s.stats with gearsCrafted := s.stats.gearsCrafted + 1 } }

def bumpWiresCrafted (s : GameState) : GameState :=
  { s with stats := { s.stats with wiresCrafted := s.stats.wiresCrafted + 1 } }

/-- The `building.type === "mine"` branch of the production loop. -/
def mineTick (s : GameState) (x y : Int) (b : Building) : GameState :=
  if (tileAt s x y).terrain = .empty then s
  else if (tileAt s x y).resource ≤ 0 then s
  else
    let b1 : Building := { b with progress := b.progress + 1 }
    let s1 := setBuilding s x y b1
    if MINE_TICKS ≤ b1.progress then
      let c := stepInDir x y b1.dir
      if canPlaceItem s1 c.1 c.2 then
        let terrain := (tileAt s1 x y).terrain
        let oreType : ItemType := if terrain = .iron then .ironOre else .copperOre
        let s2 := setItem s1 c.1 c.2 (some oreType)
        let s3 := setBuilding s2 x y { b1 with progress := 0 }
        let t := tileAt s3 x y
        let s4 :=
          if t.resource - 1 ≤ 0 then
            setTile s3 x y { t with resource := 0, terrain := .empty }
          else
            setTile s3 x y { t with resource := t.resource - 1 }
        if terrain = .iron then bumpIronMined s4 else bumpCopperMined s4
      else s1
    else s1

/-- The `building.type === "furnace"` branch of the production loop. -/
def furnaceTick (s : GameState) (x y : Int) (b : Building) : GameState :=
  let pickup : GameState × Building :=
    if b.buffer.ironOre = 0 ∧ b.buffer.copperOre = 0 then
      match findNeighborItemByTypes s x y [.ironOre, .copperOre] with
      | some c =>
        match itemAt s c.1 c.2 with
        | some oreType =>
          let b' : Building := { b with buffer := b.buffer.add oreType 1, progress := 0 }
          (setBuilding (setItem s c.1 c.2 none) x y b', b')
        | none => (s, b)
      | none => (s, b)
    else (s, b)
  let s1 := pickup.1
  let b1 := pickup.2
  let oreTypeOpt : Option ItemType :=
    if 0 < b1.buffer.ironOre then some .ironOre
    else if 0 < b1.buffer.copperOre then some .copperOre
    else none
  match oreTypeOpt with
  | none => s1
  | some oreType =>
    let b2 : Building := { b1 with progress := b1.progress + 1 }
    let s2 := setBuilding s1 x y b2
    if FURNACE_TICKS ≤ b2.progress then
      let c := stepInDir x y b2.dir
      if canPlaceItem s2 c.1 c.2 then
        let plateType : ItemType := if oreType = .ironOre then .ironPlate else .copperPlate
        let s3 := setItem s2 c.1 c.2 (some plateType)
        let s4 := setBuilding s3 x y { b2 with buffer := b2.buffer.sub oreType 1, progress := 0 }
        if plateType = .ironPlate then bumpIronPlates s4 else bumpCopperPlates s4
      else s2
    else s2

/-- The `building.type === "assembler"` branch of the production loop. -/
def assemblerTick (s : GameState) (x y : Int) (b : Building) : GameState :=
  let pickup : GameState × Building :=
    if b.buffer.ironPlate < 2 then
      match findNeighborItem s x y .ironPlate with
      | some c =>
        let b' : Building := { b with buffer := b.buffer.add .ironPlate 1, progress := 0 }
        (setBuilding (setItem s c.1 c.2 none) x y b', b')
      | none => (s, b)
    else (s, b)
  let s1 := pickup.1
  let b1 := pickup.2
  if 2 ≤ b1.buffer.ironPlate then
    let b2 : Building := { b1 with progress := b1.progress + 1 }
    let s2 := setBuilding s1 x y b2
    if ASSEMBLER_TICKS ≤ b2.progress then
      let c := stepInDir x y b2.dir
      if canPlaceItem s2 c.1 c.2 then
        let s3 := setItem s2 c.1 c.2 (some .gear)
        let s4 := setBuilding s3 x y { b2 with buffer := b2.buffer.sub .ironPlate 2, progress := 0 }
        bumpGearsCrafted s4
      else s2
    else s2
  else s1

/-- The `building.type === "wire-mill"` branch of the production loop. -/
def wireMillTick (s : GameState) (x y : Int) (b : Building) : GameState :=
  let pickup : GameState × Building :=
    if b.buffer.copperPlate < 1 then
      match findNeighborItem s x y .copperPlate with
      | some c =>
        let b' : Building := { b with buffer := b.buffer.add .copperPlate 1, progress := 0 }
        (setBuilding (setItem s c.1 c.2 none) x y b', b')
      | none => (s, b)
    else (s, b)
  let s1 := pickup.1
  let b1 := pickup.2
  if 1 ≤ b1.buffer.copperPlate then
    let b2 : Building := { b1 with progress := b1.progress + 1 }
    let s2 := setBuilding s1 x y b2
    if WIRE_MILL_TICKS ≤ b2.progress then
      let c := stepInDir x y b2.dir
      if canPlaceItem s2 c.1 c.2 then
        let s3 := setItem s2 c.1 c.2 (some .wire)
        let s4 := setBuilding s3 x y { b2 with buffer := b2.buffer.sub .copperPlate 1, progress := 0 }
        bumpWiresCrafted s4
      else s2
    else s2
  else s1

/-- The `building.type === "hub"` branch of the production loop. -/
def hubTick (s : GameState) (x y : Int) : GameState :=
  match findNeighborItemAny s x y with
  | some c =>
    match itemAt s c.1 c.2 with
    | some it =>
      { setItem s c.1 c.2 none with inventory := s.inventory.add it 1 }
    | none => s
  | none => s

/-- One iteration of the phase-A ("Mines and processors") loop body. -/
def phaseATile (s : GameState) (x y : Int) : GameState :=
  match (tileAt s x y).building with
  | none => s
  | some b =>
    match b.btype with
    | .mine => mineTick s x y b
    | .furnace => furnaceTick s x y b
    | .assembler => assemblerTick s x y b
    | .wireMill => wireMillTick s x y b
    | .hub => hubTick s x y
    | .belt => s
    | .chest => s

/-- Row-major coordinate sequence of the two per-tile loops
(`y` outer, `x` inner). -/
def coords (width height : Nat) : List (Int × Int) :=
  (List.range height).flatMap fun (y : Nat) =>
    (List.range width).map fun (x : Nat) => ((x : Int), (y : Int))

/-- One iteration of the phase-B ("Move items along belts") loop body.
`s` carries the live tiles/inventory plus the phase-A item snapshot
(`s.items`, read-only here); `moved` is the write grid. -/
def beltTile (s : GameState) (moved : ItemGrid) (x y : Int) : GameState × ItemGrid :=
  match itemAt s x y with
  | none => (s, moved)
  | some item =>
    match (tileAt s x y).building with
    | none => (s, moved)
    | some b =>
      if b.btype = .belt then
        let c := stepInDir x y b.dir
        if inBounds s c.1 c.2 then
          match (tileAt s c.1 c.2).building with
          | some db =>
            if db.btype = .belt then
              if gridGet moved c.1 c.2 = none then
                (s, gridSet (gridSet moved c.1 c.2 (some item)) x y none)
              else (s, moved)
            else if db.btype = .chest ∨ db.btype = .hub then
              ({ s with inventory := s.inventory.add item 1 }, gridSet moved x y none)
            else if db.btype = .furnace then
              if (item = .ironOre ∨ item = .copperOre) ∧
                  db.buffer.ironOre = 0 ∧ db.buffer.copperOre = 0 then
                (setBuilding s c.1 c.2
                  { db with buffer := db.buffer.add item 1, progress := 0 },
                 gridSet moved x y none)
              else (s, moved)
            else if db.btype = .assembler then
              if item = .ironPlate ∧ db.buffer.ironPlate < 2 then
                (setBuilding s c.1 c.2
                  { db with buffer := db.buffer.add .ironPlate 1, progress := 0 },
                 gridSet moved x y none)
              else (s, moved)
            else if db.btype = .wireMill then
              if item = .copperPlate ∧ db.buffer.copperPlate < 1 then
                (setBuilding s c.1 c.2
                  { db with buffer := db.buffer.add .copperPlate 1, progress := 0 },
                 gridSet moved x y none)
              else (s, moved)
            else (s, moved)
          | none =>
            if gridGet moved c.1 c.2 = none then
              (s, gridSet (gridSet moved c.1 c.2 (some item)) x y none)
            else (s, moved)
        else (s, moved)
      else (s, moved)


/-- The "Mines and processors" loop of `stepGame`: row-major fold of
`phaseATile` over the whole grid. -/
def phaseA (s : GameState) : GameState :=
  (coords s.width s.height).foldl (fun s c => phaseATile s c.1 c.2) s

/-- The "Move items along belts" loop of `stepGame`: `moved` starts as a
copy of the phase-A item grid and is folded with `beltTile`. -/
def phaseB (s : GameState) : GameState × ItemGrid :=
  (coords s.width s.height).foldl (fun sm c => beltTile sm.1 sm.2 c.1 c.2) (s, s.items)

/-- `stepGame(state)`: tick increment, production phase, belt phase, then
the final "moved" grid becomes the world's item grid. -/
def stepGame (state : GameState) : GameState :=
  let next := phaseA { state with tick := state.tick + 1 }
  let r := phaseB next
  { r.1 with items := r.2 }

/-- `BUILD_COSTS`: the fixed build-cost table. -/
def BUILD_COSTS : BuildingType → List (ItemType × Nat)
  | .belt => [(.ironPlate, 1)]
  | .mine => [(.ironPlate, 4), (.gear, 2)]
  | .furnace => [(.ironPlate, 3), (.copperPlate, 2)]
  | .assembler => [(.ironPlate, 4), (.gear, 4)]
  | .wireMill => [(.ironPlate, 2), (.copperPlate, 3)]
  | .hub => [(.ironPlate, 6), (.copperPlate, 4), (.gear, 2)]
  | .chest => [(.ironPlate, 2)]

/-- `canAffordBuild(state, type)`. -/
def canAffordBuild (s : GameState) (t : BuildingType) : Bool :=
  (BUILD_COSTS t).all fun e => decide (e.2 ≤ s.inventory.get e.1)

/-- `spendBuildCost(state, type)`. -/
def spendBuildCost (s : GameState) (t : BuildingType) : GameState :=
  { s with inventory := (BUILD_COSTS t).foldl (fun inv e => inv.sub e.1 e.2) s.inventory }

/-- `placeBuilding(state, x, y, type, dir)`. -/
def placeBuilding (state : GameState) (x y : Int) (tool : Tool) (dir : Direction) :
    GameState :=
  if x < 0 ∨ y < 0 ∨ (state.width : Int) ≤ x ∨ (state.height : Int) ≤ y then state
  else
    match tool with
    | .erase => setTile state x y { tileAt state x y with building := none }
    | .build t =>
      if canAffordBuild state t then
        let s1 := spendBuildCost state t
        let s2 := setBuilding s1 x y
          { btype := t, dir := dir, progress := 0, buffer := createBuffer }
        if t = .belt then s2 else setItem s2 x y none
      else state

/-! ## Snapshot normalization (`normalizeState` and its helpers)

A persisted snapshot is structurally untrusted: fields may be absent
(`?? default` in the source) and item / terrain tags may be legacy ones.
The raw types below carry exactly the holes and legacy tags the source's
optional-chaining handles. -/

/-- Raw terrain: current tags plus the legacy `"ore"` tag. -/
inductive RTerrain where
  | empty
  | iron
  | copper
  | ore
deriving DecidableEq

/-- Raw ground-item tag: the six current kinds, the legacy `"ore"` /
`"plate"` tags (legacy `"gear"` coincides with the current tag), and an
unrecognized tag hitting the `default` branch. -/
inductive RItemType where
  | known : ItemType → RItemType
  | ore
  | plate
  | other
deriving DecidableEq

/-- Raw buffer / inventory record: every current key optional, plus the
legacy `ore` / `plate` keys. -/
structure RBuf where
  ironOre : Option Nat
  copperOre : Option Nat
  ironPlate : Option Nat
  copperPlate : Option Nat
  gear : Option Nat
  wire : Option Nat
  ore : Option Nat
  plate : Option Nat
deriving DecidableEq

/-- Raw building: progress and buffer may be absent. -/
structure RBuilding where
  btype : BuildingType
  dir : Direction
  progress : Option Nat
  buffer : Option RBuf
deriving DecidableEq

/-- Raw tile: resource may be absent. -/
structure RTile where
  terrain : RTerrain
  resource : Option Int
  building : Option RBuilding
deriving DecidableEq

/-- Raw stats: every field optional, plus the legacy `oreMined` and
`platesSmelted` aliases. -/
structure RStats where
  ironMined : Option Nat
  copperMined : Option Nat
  ironPlates : Option Nat
  copperPlates : Option Nat
  gearsCrafted : Option Nat
  wiresCrafted : Option Nat
  oreMined : Option Nat
  platesSmelted : Option Nat
deriving DecidableEq

/-- Raw world snapshot. -/
structure RawState where
  width : Nat
  height : Nat
  tick : Option Nat
  tiles : List (List RTile)
  items : List (List (Option RItemType))
  inventory : Option RBuf
  stats : Option RStats
deriving DecidableEq

/-- `normalizeTerrain`: legacy `"ore"` becomes `"iron"`. -/
def normalizeTerrain : RTerrain → TerrainType
  | .ore => .iron
  | .empty => .empty
  | .iron => .iron
  | .copper => .copper

/-- `normalizeItemType`: legacy remapping, unrecognized kinds dropped. -/
def normalizeItemType : RItemType → Option ItemType
  | .ore => some .ironOre
  | .plate => some .ironPlate
  | .known t => some t
  | .other => none

/-- `normalizeBuffer`: zero-filled record merged with present (possibly
legacy-keyed) fields. -/
def normalizeBuffer (b : RBuf) : Buf :=
  { ironOre := createBuffer.ironOre + (b.ironOre.orElse fun _ => b.ore).getD 0
    copperOre := createBuffer.copperOre + b.copperOre.getD 0
    ironPlate := createBuffer.ironPlate + (b.ironPlate.orElse fun _ => b.plate).getD 0
    copperPlate := createBuffer.copperPlate + b.copperPlate.getD 0
    gear := createBuffer.gear + b.gear.getD 0
    wire := createBuffer.wire + b.wire.getD 0 }

/-- `normalizeInventory` (same rule as `normalizeBuffer`). -/
def normalizeInventory (b : RBuf) : Buf :=
  normalizeBuffer b

/-- The fully-absent raw record (`state.inventory ?? {}`). -/
def emptyRBuf : RBuf :=
  { ironOre := none, copperOre := none, ironPlate := none, copperPlate := none,
    gear := none, wire := none, ore := none, plate := none }

/-- `createBuffer()` seen as a raw record (`bufferDefaults`). -/
def defaultRBuf : RBuf :=
  { ironOre := some 0, copperOre := some 0, ironPlate := some 0, copperPlate := some 0,
    gear := some 0, wire := some 0, ore := none, plate := none }

/-- `normalizeState` on one raw tile. -/
def normalizeTile (t : RTile) : Tile :=
  { terrain := normalizeTerrain t.terrain
    resource := t.resource.getD (if t.terrain = .empty then 0 else 40)
    building :=
      t.building.map fun b =>
        { btype := b.btype
          dir := b.dir
          progress := b.progress.getD 0
          buffer := normalizeBuffer (b.buffer.getD defaultRBuf) } }

/-- `normalizeState` on one raw ground-item cell. -/
def normalizeItemCell (c : Option RItemType) : Option ItemType :=
  match c with
  | none => none
  | some it => normalizeItemType it

/-- `normalizeState(state)`. -/
def normalizeState (r : RawState) : GameState :=
  { width := r.width
    height := r.height
    tick := r.tick.getD 0
    tiles := r.tiles.map fun row => row.map normalizeTile
    items := r.items.map fun row => row.map normalizeItemCell
    inventory := normalizeInventory (r.inventory.getD emptyRBuf)
    stats :=
      { ironMined := ((r.stats.bind RStats.ironMined).orElse
          fun _ => r.stats.bind RStats.oreMined).getD 0
        copperMined := (r.stats.bind RStats.copperMined).getD 0
        ironPlates := ((r.stats.bind RStats.ironPlates).orElse
          fun _ => r.stats.bind RStats.platesSmelted).getD 0
        copperPlates := (r.stats.bind RStats.copperPlates).getD 0
        gearsCrafted := (r.stats.bind RStats.gearsCrafted).getD 0
        wiresCrafted := (r.stats.bind RStats.wiresCrafted).getD 0 } }

/-- The canonical raw form of a current-shape world: every field present,
no legacy keys.  This is how a world produced by `normalizeState` looks
when it is fed to `normalizeState` a second time. -/
def bufToRBuf (b : Buf) : RBuf :=
  { ironOre := some b.ironOre, copperOre := some b.copperOre,
    ironPlate := some b.ironPlate, copperPlate := some b.copperPlate,
    gear := some b.gear, wire := some b.wire, ore := none, plate := none }

def terrainToRTerrain : TerrainType → RTerrain
  | .empty => .empty
  | .iron => .iron
  | .copper => .copper

def tileToRTile (t : Tile) : RTile :=
  { terrain := terrainToRTerrain t.terrain
    resource := some t.resource
    building :=
      t.building.map fun b =>
        { btype := b.btype, dir := b.dir, progress := some b.progress,
          buffer := some (bufToRBuf b.buffer) } }

def toRaw (s : GameState) : RawState :=
  { width := s.width
    height := s.height
    tick := some s.tick
    tiles := s.tiles.map fun row => row.map tileToRTile
    items := s.items.map fun row => row.map (Option.map RItemType.known)
    inventory := some (bufToRBuf s.inventory)
    stats := some
      { ironMined := some s.stats.ironMined, copperMined := some s.stats.copperMined,
        ironPlates := some s.stats.ironPlates, copperPlates := some s.stats.copperPlates,
        gearsCrafted := some s.stats.gearsCrafted, wiresCrafted := some s.stats.wiresCrafted,
        oreMined := none, platesSmelted := none } }

/-- The bundle of world fields no per-tile update ever touches. -/
abbrev SameCore (s s' : GameState) : Prop :=
  s'.width = s.width ∧ s'.height = s.height ∧ s'.tick = s.tick

/-- Rows of a well-formed `w × h` row-major grid. -/
def GridDims {α : Type} (g : List (List α)) (w h : Nat) : Prop :=
  g.length = h ∧ ∀ r ∈ g, r.length = w

/-- World well-formedness: both grids have the world's dimensions. -/
def Wf (s : GameState) : Prop :=
  GridDims s.tiles s.width s.height ∧ GridDims s.items s.width s.height

instance {α : Type} (g : List (List α)) (w h : Nat) : Decidable (GridDims g w h) := by
  unfold GridDims
  exact instDecidableAnd

instance (s : GameState) : Decidable (Wf s) := by
  unfold Wf
  exact instDecidableAnd

/-! ## Placement: affordability gate (C5) -/

/-- The amount of item `k` in the build-cost table row for `t`. -/
def costAmount (t : BuildingType) (k : ItemType) : Nat :=
  (((BUILD_COSTS t).find? fun e => decide (e.1 = k)).map Prod.snd).getD 0

/-- Pointwise inventory comparison between two world states. -/
def InvLe (s s' : GameState) : Prop :=
  ∀ k, s.inventory.get k ≤ s'.inventory.get k

/-- The all-zero statistics record. -/
def zeroStats : Stats :=
  { ironMined := 0, copperMined := 0, ironPlates := 0, copperPlates := 0,
    gearsCrafted := 0, wiresCrafted := 0 }

/-- An empty tile. -/
def tE : Tile := { terrain := .empty, resource := 0, building := none }

/-- The C3 scenario world: empty 3×3, a mine at `(1,1)` facing right on an
iron tile with resource 1. -/
def mineScenario : GameState :=
  { width := 3, height := 3, tick := 0,
    tiles := [[tE, tE, tE],
      [tE, { terrain := .iron, resource := 1,
             building := some { btype := .mine, dir := .right, progress := 0,
                                buffer := createBuffer } }, tE],
      [tE, tE, tE]],
    items := [[none, none, none], [none, none, none], [none, none, none]],
    inventory := createBuffer,
    stats := zeroStats }

/-- `mineScenario` one tick before emission (mine progress already 3). -/
def mineReady : GameState :=
  { mineScenario with
    tiles := [[tE, tE, tE],
      [tE, { terrain := .iron, resource := 1,
             building := some { btype := .mine, dir := .right, progress := 3,
                                buffer := createBuffer } }, tE],
      [tE, tE, tE]] }

/-- A 2×1 world whose mine at `(0,0)` is at full progress with its emission
target `(1,0)` blocked by a ground item. -/
def blockedMine : GameState :=
  { width := 2, height := 1, tick := 0,
    tiles := [[{ terrain := .iron, resource := 5,
                 building := some { btype := .mine, dir := .right, progress := 4,
                                    buffer := createBuffer } }, tE]],
    items := [[none, some .gear]],
    inventory := createBuffer,
    stats := zeroStats }

/-- A 1×1 world with a rich inventory, used to witness the placement gate. -/
def richWorld : GameState :=
  { width := 1, height := 1, tick := 0, tiles := [[tE]], items := [[none]],
    inventory := { ironOre := 0, copperOre := 0, ironPlate := 10,
                   copperPlate := 10, gear := 10, wire := 0 },
    stats := zeroStats }

/-- A legacy-shaped raw snapshot used to witness the normalization claims. -/
def legacySnapshot : RawState :=
  { width := 1, height := 1, tick := none,
    tiles := [[{ terrain := .ore, resource := none, building := none }]],
    items := [[some .ore]],
    inventory := none,
    stats := some { ironMined := none, copperMined := none, ironPlates := none,
                    copperPlates := none, gearsCrafted := none, wiresCrafted := none,
                    oreMined := some 7, platesSmelted := some 3 } }

/-! ## Row-major indexing of the scan order -/

/-- Row-major cell number of a coordinate pair. -/
def rmIdx (w : Nat) (p : Int × Int) : Nat := p.2.toNat * w + p.1.toNat

/-- The coordinate pair of a row-major cell number. -/
def coordOf (w : Nat) (n : Nat) : Int × Int :=
  (((n % w : Nat) : Int), ((n / w : Nat) : Int))

/-- Belt-relevant signature of a tile's building: its type and direction
(phase B may rewrite buffers and progress, never these). -/
def beltSig (s : GameState) (x y : Int) : Option (BuildingType × Direction) :=
  (tileAt s x y).building.map fun b => (b.btype, b.dir)

/-- The phase-B fold over an arbitrary coordinate list. -/
def foldB (L : List (Int × Int)) (sm : GameState × ItemGrid) : GameState × ItemGrid :=
  L.foldl (fun sm c => beltTile sm.1 sm.2 c.1 c.2) sm

/-- A 2×1 world with a loaded belt at `(0,0)` feeding a chest at `(1,0)`. -/
def beltChestWorld : GameState :=
  { width := 2, height := 1, tick := 0,
    tiles := [[{ terrain := .empty, resource := 0,
                 building := some { btype := .belt, dir := .right, progress := 0,
                                    buffer := createBuffer } },
               { terrain := .empty, resource := 0,
                 building := some { btype := .chest, dir := .up, progress := 0,
                                    buffer := createBuffer } }]],
    items := [[some .ironOre, none]],
    inventory := createBuffer,
    stats := zeroStats }

/-- A 2×2 world in which the belts at `(0,0)` (facing right) and `(1,1)`
(facing up) both feed the empty tile `(1,0)` in the same tick. -/
def jamWorld : GameState :=
  { width := 2, height := 2, tick := 0,
    tiles := [[{ terrain := .empty, resource := 0,
                 building := some { btype := .belt, dir := .right, progress := 0,
                                    buffer := createBuffer } }, tE],
              [tE,
               { terrain := .empty, resource := 0,
                 building := some { btype := .belt, dir := .up, progress := 0,
                                    buffer := createBuffer } }]],
    items := [[some .ironOre, none], [none, some .copperOre]],
    inventory := createBuffer,
    stats := zeroStats }

/-! ## Item conservation over a tick (C1) -/

/-- Number of items in a ground cell. -/
def itemCount : Option ItemType → Nat
  | none => 0
  | some _ => 1

/-- Total ground items of an item grid. -/
def gridItemSum (g : ItemGrid) : Nat :=
  (g.map fun r => (r.map itemCount).sum).sum

/-- Total content of a buffer / inventory record. -/
def Buf.total (b : Buf) : Nat :=
  b.ironOre + b.copperOre + b.ironPlate + b.copperPlate + b.gear + b.wire

/-- Buffered items of one tile. -/
def tileBufSum (t : Tile) : Nat :=
  match t.building with
  | some b => b.buffer.total
  | none => 0

/-- Total buffered items of a tile grid. -/
def gridBufSum (g : TileGrid) : Nat :=
  (g.map fun r => (r.map tileBufSum).sum).sum

/-- The specification's total item count: ground items + building buffers +
inventory. -/
def totalCount (s : GameState) : Nat :=
  gridItemSum s.items + gridBufSum s.tiles + s.inventory.total

/-- Conservation measure: total items plus gears crafted minus ore mined
(each crafted gear nets one item out; every mined ore nets one item in). -/
def measureM (s : GameState) : Int :=
  (totalCount s : Int) + s.stats.gearsCrafted - s.stats.ironMined - s.stats.copperMined

/-- Phase-B conservation measure: counts the moved grid instead of the item
snapshot. -/
def measureB (sm : GameState × ItemGrid) : Int :=
  (gridItemSum sm.2 : Int) + gridBufSum sm.1.tiles + sm.1.inventory.total
    + sm.1.stats.gearsCrafted - sm.1.stats.ironMined - sm.1.stats.copperMined

/-- A 2×1 world whose assembler at `(0,0)` (facing right, progress 7, two
iron plates buffered) completes a gear on the next tick. -/
def gearWorld : GameState :=
  { width := 2, height := 1, tick := 0,
    tiles := [[{ terrain := .empty, resource := 0,
                 building := some { btype := .assembler, dir := .right, progress := 7,
                                    buffer := { createBuffer with ironPlate := 2 } } }, tE]],
    items := [[none, none]],
    inventory := createBuffer,
    stats := zeroStats }

/-! ## Frame lemmas for the state-update primitives -/

@[simp] theorem setTile_width (s : GameState) (x y : Int) (t : Tile) :
    (setTile s x y t).width = s.width := rfl

@[simp] theorem setTile_height (s : GameState) (x y : Int) (t : Tile) :
    (setTile s x y t).height = s.height := rfl

@[simp] theorem setTile_tick (s : GameState) (x y : Int) (t : Tile) :
    (setTile s x y t).tick = s.tick := rfl

@[simp] theorem setTile_items (s : GameState) (x y : Int) (t : Tile) :
    (setTile s x y t).items = s.items := rfl

@[simp] theorem setTile_inventory (s : GameState) (x y : Int) (t : Tile) :
    (setTile s x y t).inventory = s.inventory := rfl

@[simp] theorem setTile_stats (s : GameState) (x y : Int) (t : Tile) :
    (setTile s x y t).stats = s.stats := rfl

@[simp] theorem setItem_width (s : GameState) (x y : Int) (v : Option ItemType) :
    (setItem s x y v).width = s.width := rfl

@[simp] theorem setItem_height (s : GameState) (x y : Int) (v : Option ItemType) :
    (setItem s x y v).height = s.height := rfl

@[simp] theorem setItem_tick (s : GameState) (x y : Int) (v : Option ItemType) :
    (setItem s x y v).tick = s.tick := rfl

@[simp] theorem setItem_tiles (s : GameState) (x y : Int) (v : Option ItemType) :
    (setItem s x y v).tiles = s.tiles := rfl

@[simp] theorem setItem_inventory (s : GameState) (x y : Int) (v : Option ItemType) :
    (setItem s x y v).inventory = s.inventory := rfl

@[simp] theorem setItem_stats (s : GameState) (x y : Int) (v : Option ItemType) :
    (setItem s x y v).stats = s.stats := rfl

@[simp] theorem setBuilding_width (s : GameState) (x y : Int) (b : Building) :
    (setBuilding s x y b).width = s.width := rfl

@[simp] theorem setBuilding_height (s : GameState) (x y : Int) (b : Building) :
    (setBuilding s x y b).height = s.height := rfl

@[simp] theorem setBuilding_tick (s : GameState) (x y : Int) (b : Building) :
    (setBuilding s x y b).tick = s.tick := rfl

@[simp] theorem setBuilding_items (s : GameState) (x y : Int) (b : Building) :
    (setBuilding s x y b).items = s.items := rfl

@[simp] theorem setBuilding_inventory (s : GameState) (x y : Int) (b : Building) :
    (setBuilding s x y b).inventory = s.inventory := rfl

@[simp] theorem setBuilding_stats (s : GameState) (x y : Int) (b : Building) :
    (setBuilding s x y b).stats = s.stats := rfl

theorem sameCore_refl (s : GameState) : SameCore s s := ⟨rfl, rfl, rfl⟩

theorem sameCore_trans {s₁ s₂ s₃ : GameState} (h : SameCore s₁ s₂) (h' : SameCore s₂ s₃) :
    SameCore s₁ s₃ :=
  ⟨h'.1.trans h.1, h'.2.1.trans h.2.1, h'.2.2.trans h.2.2⟩

theorem mineTick_core (s : GameState) (x y : Int) (b : Building) :
    SameCore s (mineTick s x y b) := by
  simp only [mineTick]
  repeat' split
  all_goals exact ⟨rfl, rfl, rfl⟩

theorem furnaceTick_core (s : GameState) (x y : Int) (b : Building) :
    SameCore s (furnaceTick s x y b) := by
  simp only [furnaceTick]
  repeat' split
  all_goals exact ⟨rfl, rfl, rfl⟩

theorem assemblerTick_core (s : GameState) (x y : Int) (b : Building) :
    SameCore s (assemblerTick s x y b) := by
  simp only [assemblerTick]
  repeat' split
  all_goals exact ⟨rfl, rfl, rfl⟩

theorem wireMillTick_core (s : GameState) (x y : Int) (b : Building) :
    SameCore s (wireMillTick s x y b) := by
  simp only [wireMillTick]
  repeat' split
  all_goals exact ⟨rfl, rfl, rfl⟩

theorem hubTick_core (s : GameState) (x y : Int) :
    SameCore s (hubTick s x y) := by
  simp only [hubTick]
  repeat' split
  all_goals exact ⟨rfl, rfl, rfl⟩

theorem phaseATile_core (s : GameState) (x y : Int) :
    SameCore s (phaseATile s x y) := by
  unfold phaseATile
  split
  · exact sameCore_refl s
  · split
    · exact mineTick_core ..
    · exact furnaceTick_core ..
    · exact assemblerTick_core ..
    · exact wireMillTick_core ..
    · exact hubTick_core ..
    · exact sameCore_refl s
    · exact sameCore_refl s

theorem beltTile_core (s : GameState) (m : ItemGrid) (x y : Int) :
    SameCore s (beltTile s m x y).1 := by
  simp only [beltTile]
  repeat' split
  all_goals exact ⟨rfl, rfl, rfl⟩

/-- Phase B never rewrites the phase-A item snapshot it reads from. -/
theorem beltTile_items (s : GameState) (m : ItemGrid) (x y : Int) :
    (beltTile s m x y).1.items = s.items := by
  simp only [beltTile]
  repeat' split
  all_goals rfl

theorem foldl_phaseA_core (L : List (Int × Int)) (s : GameState) :
    SameCore s (L.foldl (fun s c => phaseATile s c.1 c.2) s) := by
  induction L generalizing s with
  | nil => exact sameCore_refl s
  | cons c L ih =>
    exact sameCore_trans (phaseATile_core s c.1 c.2) (ih _)

theorem foldl_beltTile_core (L : List (Int × Int)) (sm : GameState × ItemGrid) :
    SameCore sm.1 (L.foldl (fun sm c => beltTile sm.1 sm.2 c.1 c.2) sm).1 := by
  induction L generalizing sm with
  | nil => exact sameCore_refl sm.1
  | cons c L ih =>
    exact sameCore_trans (beltTile_core sm.1 sm.2 c.1 c.2) (ih _)

/-- **C7.** Every step advances the tick by exactly one; `stepGame` is a
total function on worlds, so it "always succeeds". -/
theorem phaseA_core (s : GameState) : SameCore s (phaseA s) :=
  foldl_phaseA_core _ s

theorem phaseB_core (s : GameState) : SameCore s (phaseB s).1 :=
  foldl_beltTile_core _ (s, s.items)

theorem stepGame_tick (w : GameState) : (stepGame w).tick = w.tick + 1 := by
  have h1 := phaseA_core { w with tick := w.tick + 1 }
  have h2 := phaseB_core (phaseA { w with tick := w.tick + 1 })
  show (phaseB (phaseA { w with tick := w.tick + 1 })).1.tick = w.tick + 1
  rw [h2.2.2, h1.2.2]

/-! ## Point lemmas for the 2D grids -/

theorem getD_set_self {α : Type} (l : List α) (i : Nat) (a d : α) (h : i < l.length) :
    (l.set i a).getD i d = a := by
  rw [List.getD_eq_getElem?_getD, List.getElem?_set_self h]
  rfl

theorem getD_set_ne {α : Type} (l : List α) {i j : Nat} (a d : α) (h : i ≠ j) :
    (l.set i a).getD j d = l.getD j d := by
  rw [List.getD_eq_getElem?_getD, List.getElem?_set_ne h, ← List.getD_eq_getElem?_getD]

theorem getD_mem {α : Type} {l : List α} {i : Nat} (d : α) (h : i < l.length) :
    l.getD i d ∈ l := by
  rw [List.getD_eq_getElem l d h]
  exact List.getElem_mem h

theorem GridDims.setCell {α : Type} {g : List (List α)} {w h : Nat}
    (hg : GridDims g w h) (x y : Nat) (v : α) :
    GridDims (setCell g x y v) w h := by
  constructor
  · simpa [GPTorio.setCell] using hg.1
  · intro r hr
    by_cases hy : y < g.length
    · rcases List.mem_or_eq_of_mem_set hr with h1 | h1
      · exact hg.2 r h1
      · subst h1
        rw [List.length_set]
        exact hg.2 _ (getD_mem [] hy)
    · rw [GPTorio.setCell, List.set_eq_of_length_le (le_of_not_lt hy)] at hr
      exact hg.2 r hr

theorem cell_setCell_self {α : Type} {g : List (List α)} (x y : Nat) (v d : α)
    (hy : y < g.length) (hx : x < (g.getD y []).length) :
    cell (setCell g x y v) x y d = v := by
  unfold cell setCell
  rw [getD_set_self _ _ _ _ (by simpa using hy)]
  rw [getD_set_self _ _ _ _ hx]

theorem cell_setCell_ne {α : Type} {g : List (List α)} {x y x' y' : Nat} (v d : α)
    (h : x' ≠ x ∨ y' ≠ y) :
    cell (setCell g x y v) x' y' d = cell g x' y' d := by
  unfold cell setCell
  rcases h with h | h
  · by_cases hy : y < g.length
    · by_cases hyy : y' = y
      · subst hyy
        rw [getD_set_self _ _ _ _ (by simpa using hy)]
        rw [getD_set_ne _ _ _ (fun hc => h hc.symm)]
      · rw [getD_set_ne _ _ _ (fun hc => hyy hc.symm)]
    · rw [List.set_eq_of_length_le (le_of_not_lt hy)]
  · rw [getD_set_ne _ _ _ (fun hc => h hc.symm)]

/-- Decoding of the `inBounds` boolean. -/
theorem inBounds_iff {s : GameState} {x y : Int} :
    inBounds s x y = true ↔
      0 ≤ x ∧ 0 ≤ y ∧ x < (s.width : Int) ∧ y < (s.height : Int) := by
  simp [inBounds]
  tauto

theorem inBounds_congr {s s' : GameState} (x y : Int)
    (hwid : s'.width = s.width) (hht : s'.height = s.height) :
    inBounds s' x y = inBounds s x y := by
  simp [inBounds, hwid, hht]

theorem toNat_lt_of_inBounds_y {s : GameState} {x y : Int}
    (hb : inBounds s x y = true) : y.toNat < s.height := by
  rw [inBounds_iff] at hb
  omega

theorem toNat_lt_of_inBounds_x {s : GameState} {x y : Int}
    (hb : inBounds s x y = true) : x.toNat < s.width := by
  rw [inBounds_iff] at hb
  omega

theorem row_length_of_dims {α : Type} {g : List (List α)} {w h : Nat}
    (hg : GridDims g w h) {y : Nat} (hy : y < h) :
    (g.getD y []).length = w :=
  hg.2 _ (getD_mem [] (by rw [hg.1]; exact hy))

theorem tileAt_setTile_self {s : GameState} {x y : Int} (t : Tile)
    (hw : Wf s) (hb : inBounds s x y = true) :
    tileAt (setTile s x y t) x y = t := by
  unfold tileAt setTile
  exact cell_setCell_self _ _ _ _
    (by rw [hw.1.1]; exact toNat_lt_of_inBounds_y hb)
    (by rw [row_length_of_dims hw.1 (toNat_lt_of_inBounds_y hb)]
        exact toNat_lt_of_inBounds_x hb)

theorem tileAt_setTile_ne {s : GameState} {x y x' y' : Int} (t : Tile)
    (h : x'.toNat ≠ x.toNat ∨ y'.toNat ≠ y.toNat) :
    tileAt (setTile s x y t) x' y' = tileAt s x' y' :=
  cell_setCell_ne _ _ h

theorem gridGet_gridSet_self {g : ItemGrid} {w h : Nat} {x y : Int}
    (v : Option ItemType) (hg : GridDims g w h)
    (hx : x.toNat < w) (hy : y.toNat < h) :
    gridGet (gridSet g x y v) x y = v := by
  unfold gridGet gridSet
  exact cell_setCell_self _ _ _ _
    (by rw [hg.1]; exact hy)
    (by rw [row_length_of_dims hg hy]; exact hx)

theorem gridGet_gridSet_ne {g : ItemGrid} {x y x' y' : Int} (v : Option ItemType)
    (h : x'.toNat ≠ x.toNat ∨ y'.toNat ≠ y.toNat) :
    gridGet (gridSet g x y v) x' y' = gridGet g x' y' :=
  cell_setCell_ne _ _ h

theorem itemAt_setItem_self {s : GameState} {x y : Int} (v : Option ItemType)
    (hw : Wf s) (hb : inBounds s x y = true) :
    itemAt (setItem s x y v) x y = v :=
  gridGet_gridSet_self v hw.2 (toNat_lt_of_inBounds_x hb) (toNat_lt_of_inBounds_y hb)

theorem itemAt_setItem_ne {s : GameState} {x y x' y' : Int} (v : Option ItemType)
    (h : x'.toNat ≠ x.toNat ∨ y'.toNat ≠ y.toNat) :
    itemAt (setItem s x y v) x' y' = itemAt s x' y' :=
  gridGet_gridSet_ne v h

@[simp] theorem tileAt_setItem (s : GameState) (x y x' y' : Int) (v : Option ItemType) :
    tileAt (setItem s x y v) x' y' = tileAt s x' y' := rfl

@[simp] theorem itemAt_setTile (s : GameState) (x y x' y' : Int) (t : Tile) :
    itemAt (setTile s x y t) x' y' = itemAt s x' y' := rfl

theorem Wf.setTile {s : GameState} (hw : Wf s) (x y : Int) (t : Tile) :
    Wf (setTile s x y t) :=
  ⟨hw.1.setCell x.toNat y.toNat t, hw.2⟩

theorem Wf.setItem {s : GameState} (hw : Wf s) (x y : Int) (v : Option ItemType) :
    Wf (setItem s x y v) :=
  ⟨hw.1, hw.2.setCell x.toNat y.toNat v⟩

theorem Wf.setBuilding {s : GameState} (hw : Wf s) (x y : Int) (b : Building) :
    Wf (setBuilding s x y b) :=
  hw.setTile x y _

theorem spendBuildCost_get (s : GameState) (t : BuildingType) (k : ItemType) :
    (spendBuildCost s t).inventory.get k = s.inventory.get k - costAmount t k := by
  cases t <;> cases k <;>
    simp [spendBuildCost, BUILD_COSTS, costAmount, Buf.sub, Buf.get, List.find?]

theorem spendBuildCost_tiles (s : GameState) (t : BuildingType) :
    (spendBuildCost s t).tiles = s.tiles := rfl

/-- **C5.**  The affordability gate of `placeBuilding`:
(1) an unaffordable build is a strict no-op;
(2) an affordable in-bounds build deducts exactly the cost-table amounts
and installs a fresh building of the requested type and direction with
progress `0` and the all-zero buffer at `(x, y)`;
(3) `canAffordBuild` holds exactly when the inventory covers every
`(item, amount)` entry of the cost table. -/
theorem placeBuilding_afford_gate (w : GameState) (x y : Int) (T : BuildingType)
    (d : Direction) (hw : Wf w) :
    (canAffordBuild w T = false → placeBuilding w x y (.build T) d = w) ∧
    (canAffordBuild w T = true → inBounds w x y = true →
      (∀ k, (placeBuilding w x y (.build T) d).inventory.get k
          = w.inventory.get k - costAmount T k) ∧
      (tileAt (placeBuilding w x y (.build T) d) x y).building
        = some { btype := T, dir := d, progress := 0, buffer := createBuffer }) ∧
    (canAffordBuild w T = true ↔ ∀ e ∈ BUILD_COSTS T, e.2 ≤ w.inventory.get e.1) := by
  refine ⟨?_, ?_, ?_⟩
  · intro hno
    unfold placeBuilding
    split
    · rfl
    · simp [hno]
  · intro hyes hb
    have hoob : ¬(x < 0 ∨ y < 0 ∨ (w.width : Int) ≤ x ∨ (w.height : Int) ≤ y) := by
      rw [inBounds_iff] at hb
      omega
    constructor
    · intro k
      unfold placeBuilding
      rw [if_neg hoob]
      simp only [hyes, if_true]
      split <;> simp [spendBuildCost_get, setBuilding]
    · unfold placeBuilding
      rw [if_neg hoob]
      simp only [hyes, if_true]
      have hw1 : Wf (spendBuildCost w T) := hw
      have hb1 : inBounds (spendBuildCost w T) x y = true := hb
      split <;>
        simp [setBuilding, tileAt_setTile_self _ hw1 hb1]
  · simp [canAffordBuild, List.all_eq_true]

/-! ## Normalization: idempotence (C8) and legacy remapping (C9) -/

@[simp] theorem orElse_some {α : Type} (a : α) (f : Unit → Option α) :
    (some a).orElse f = some a := rfl

@[simp] theorem orElse_none {α : Type} (f : Unit → Option α) :
    Option.orElse none f = f () := rfl

theorem normalizeBuffer_bufToRBuf (b : Buf) :
    normalizeBuffer (bufToRBuf b) = b := by
  simp [normalizeBuffer, bufToRBuf, createBuffer]

theorem normalizeTile_idem (t : RTile) :
    normalizeTile (tileToRTile (normalizeTile t)) = normalizeTile t := by
  unfold normalizeTile tileToRTile
  cases t with
  | mk terrain resource building =>
    simp only [Tile.mk.injEq]
    refine ⟨?_, ?_, ?_⟩
    · cases terrain <;> rfl
    · simp
    · cases building with
      | none => rfl
      | some b => simp [normalizeBuffer_bufToRBuf]

theorem normalizeItemCell_idem (c : Option RItemType) :
    normalizeItemCell (Option.map RItemType.known (normalizeItemCell c)) =
      normalizeItemCell c := by
  cases c with
  | none => rfl
  | some it => cases it with
    | known t => rfl
    | ore => rfl
    | plate => rfl
    | other => rfl

/-- Component-wise equality of worlds. -/
theorem GameState.ext' {a b : GameState} (h1 : a.width = b.width)
    (h2 : a.height = b.height) (h3 : a.tick = b.tick) (h4 : a.tiles = b.tiles)
    (h5 : a.items = b.items) (h6 : a.inventory = b.inventory)
    (h7 : a.stats = b.stats) : a = b := by
  cases a
  cases b
  simp_all

/-- **C8.**  Normalization is idempotent: re-normalizing the canonical raw
snapshot of an already-normalized world changes nothing, structurally. -/
theorem normalizeState_idem (r : RawState) :
    normalizeState (toRaw (normalizeState r)) = normalizeState r := by
  refine GameState.ext' rfl rfl rfl ?_ ?_ ?_ rfl
  · simp only [normalizeState, toRaw, List.map_map]
    refine List.map_congr_left fun row _ => ?_
    simp only [Function.comp, List.map_map]
    exact List.map_congr_left fun t _ => normalizeTile_idem t
  · simp only [normalizeState, toRaw, List.map_map]
    refine List.map_congr_left fun row _ => ?_
    simp only [Function.comp, List.map_map]
    exact List.map_congr_left fun c _ => normalizeItemCell_idem c
  · exact normalizeBuffer_bufToRBuf _

/-- **C9.**  Legacy remapping in normalization: ground-item kinds `"ore"`,
`"plate"`, `"gear"` map to iron-ore, iron-plate, gear, unrecognized kinds are
dropped, and the item grid is normalized cell-by-cell with this map; legacy
terrain `"ore"` becomes iron-bearing; legacy `oreMined` (resp.
`platesSmelted`) supplies `ironMined` (resp. `ironPlates`) only when the
current field is absent; still-missing stats fields default to `0`. -/
theorem normalizeState_legacy (r : RawState) (st : RStats) (hst : r.stats = some st) :
    (normalizeItemType .ore = some .ironOre ∧
     normalizeItemType .plate = some .ironPlate ∧
     normalizeItemType (.known .gear) = some .gear ∧
     normalizeItemType .other = none) ∧
    ((normalizeState r).items = r.items.map fun row => row.map normalizeItemCell) ∧
    (∀ it, normalizeItemCell (some it) = normalizeItemType it) ∧
    (normalizeTerrain .ore = .iron) ∧
    ((normalizeState r).tiles = r.tiles.map fun row => row.map normalizeTile) ∧
    (∀ t : RTile, (normalizeTile t).terrain = normalizeTerrain t.terrain) ∧
    ((st.ironMined = none →
        (normalizeState r).stats.ironMined = st.oreMined.getD 0) ∧
     (∀ v, st.ironMined = some v → (normalizeState r).stats.ironMined = v)) ∧
    ((st.ironPlates = none →
        (normalizeState r).stats.ironPlates = st.platesSmelted.getD 0) ∧
     (∀ v, st.ironPlates = some v → (normalizeState r).stats.ironPlates = v)) ∧
    (st.copperMined = none → (normalizeState r).stats.copperMined = 0) ∧
    (st.copperPlates = none → (normalizeState r).stats.copperPlates = 0) ∧
    (st.gearsCrafted = none → (normalizeState r).stats.gearsCrafted = 0) ∧
    (st.wiresCrafted = none → (normalizeState r).stats.wiresCrafted = 0) := by
  refine ⟨⟨rfl, rfl, rfl, rfl⟩, rfl, fun it => rfl, rfl, rfl, fun t => rfl,
    ⟨?_, ?_⟩, ⟨?_, ?_⟩, ?_, ?_, ?_, ?_⟩
  · intro h
    simp [normalizeState, hst, h]
  · intro v h
    simp [normalizeState, hst, h]
  · intro h
    simp [normalizeState, hst, h]
  · intro v h
    simp [normalizeState, hst, h]
  · intro h
    simp [normalizeState, hst, h]
  · intro h
    simp [normalizeState, hst, h]
  · intro h
    simp [normalizeState, hst, h]
  · intro h
    simp [normalizeState, hst, h]

/-! ## Inventory monotonicity over a tick (C10) -/

theorem Buf.get_add (b : Buf) (it k : ItemType) (n : Nat) :
    (b.add it n).get k = b.get k + (if k = it then n else 0) := by
  cases it <;> cases k <;> simp [Buf.add, Buf.get]

theorem Buf.le_add (b : Buf) (it k : ItemType) (n : Nat) :
    b.get k ≤ (b.add it n).get k := by
  rw [Buf.get_add]
  omega

theorem invLe_refl (s : GameState) : InvLe s s := fun _ => le_rfl

theorem invLe_trans {s₁ s₂ s₃ : GameState} (h : InvLe s₁ s₂) (h' : InvLe s₂ s₃) :
    InvLe s₁ s₃ := fun k => (h k).trans (h' k)

theorem mineTick_inventory (s : GameState) (x y : Int) (b : Building) :
    (mineTick s x y b).inventory = s.inventory := by
  simp only [mineTick]
  repeat' split
  all_goals rfl

theorem furnaceTick_inventory (s : GameState) (x y : Int) (b : Building) :
    (furnaceTick s x y b).inventory = s.inventory := by
  simp only [furnaceTick]
  repeat' split
  all_goals rfl

theorem assemblerTick_inventory (s : GameState) (x y : Int) (b : Building) :
    (assemblerTick s x y b).inventory = s.inventory := by
  simp only [assemblerTick]
  repeat' split
  all_goals rfl

theorem wireMillTick_inventory (s : GameState) (x y : Int) (b : Building) :
    (wireMillTick s x y b).inventory = s.inventory := by
  simp only [wireMillTick]
  repeat' split
  all_goals rfl

theorem hubTick_invLe (s : GameState) (x y : Int) : InvLe s (hubTick s x y) := by
  intro k
  simp only [hubTick]
  repeat' split
  · exact Buf.le_add ..
  · exact le_rfl
  · exact le_rfl

theorem phaseATile_invLe (s : GameState) (x y : Int) : InvLe s (phaseATile s x y) := by
  unfold phaseATile
  split
  · exact invLe_refl s
  · split
    · exact fun k => (mineTick_inventory s x y _).symm ▸ le_rfl
    · exact fun k => (furnaceTick_inventory s x y _).symm ▸ le_rfl
    · exact fun k => (assemblerTick_inventory s x y _).symm ▸ le_rfl
    · exact fun k => (wireMillTick_inventory s x y _).symm ▸ le_rfl
    · exact hubTick_invLe s x y
    · exact invLe_refl s
    · exact invLe_refl s

theorem beltTile_invLe (s : GameState) (m : ItemGrid) (x y : Int) :
    InvLe s (beltTile s m x y).1 := by
  intro k
  simp only [beltTile]
  repeat' split
  all_goals first
    | exact le_rfl
    | exact Buf.le_add ..

theorem foldl_phaseA_invLe (L : List (Int × Int)) (s : GameState) :
    InvLe s (L.foldl (fun s c => phaseATile s c.1 c.2) s) := by
  induction L generalizing s with
  | nil => exact invLe_refl s
  | cons c L ih => exact invLe_trans (phaseATile_invLe s c.1 c.2) (ih _)

theorem foldl_beltTile_invLe (L : List (Int × Int)) (sm : GameState × ItemGrid) :
    InvLe sm.1 (L.foldl (fun sm c => beltTile sm.1 sm.2 c.1 c.2) sm).1 := by
  induction L generalizing sm with
  | nil => exact invLe_refl sm.1
  | cons c L ih => exact invLe_trans (beltTile_invLe sm.1 sm.2 c.1 c.2) (ih _)

theorem phaseA_invLe (s : GameState) : InvLe s (phaseA s) :=
  foldl_phaseA_invLe _ s

theorem phaseB_invLe (s : GameState) : InvLe s (phaseB s).1 :=
  foldl_beltTile_invLe _ (s, s.items)

/-- **C10.**  A tick never decreases any inventory slot: `stepGame` only
credits the inventory (hub pickup, belt delivery into hub / chest) and
never spends from it. -/
theorem stepGame_inventory_mono (w : GameState) (k : ItemType) :
    w.inventory.get k ≤ (stepGame w).inventory.get k := by
  show w.inventory.get k ≤ (phaseB (phaseA { w with tick := w.tick + 1 })).1.inventory.get k
  exact le_trans ((phaseA_invLe { w with tick := w.tick + 1 }) k)
    ((phaseB_invLe (phaseA { w with tick := w.tick + 1 })) k)

/-! ## Mine production: emission and stalling (C3, C4) -/

theorem canPlaceItem_iff {s : GameState} {x y : Int} :
    canPlaceItem s x y = true ↔
      inBounds s x y = true ∧
      (∀ b, (tileAt s x y).building = some b → b.btype = .belt) ∧
      itemAt s x y = none := by
  unfold canPlaceItem
  rcases h : (tileAt s x y).building with _ | b
  · simp [h]
  · simp [h]
    tauto

theorem stepInDir_ne {s : GameState} {x y : Int} {d : Direction}
    (hb : inBounds s x y = true)
    (hb2 : inBounds s (stepInDir x y d).1 (stepInDir x y d).2 = true) :
    (stepInDir x y d).1.toNat ≠ x.toNat ∨ (stepInDir x y d).2.toNat ≠ y.toNat := by
  rw [inBounds_iff] at hb hb2
  cases d <;> simp only [stepInDir] at hb2 ⊢ <;> omega

theorem tileAt_setBuilding_self {s : GameState} {x y : Int} (b : Building)
    (hw : Wf s) (hb : inBounds s x y = true) :
    tileAt (setBuilding s x y b) x y = { tileAt s x y with building := some b } :=
  tileAt_setTile_self _ hw hb

theorem tileAt_setBuilding_ne {s : GameState} {x y x' y' : Int} (b : Building)
    (h : x'.toNat ≠ x.toNat ∨ y'.toNat ≠ y.toNat) :
    tileAt (setBuilding s x y b) x' y' = tileAt s x' y' :=
  tileAt_setTile_ne _ h

theorem canPlaceItem_setBuilding_ne {s : GameState} {x y nx ny : Int} {b : Building}
    (h : nx.toNat ≠ x.toNat ∨ ny.toNat ≠ y.toNat) :
    canPlaceItem (setBuilding s x y b) nx ny = canPlaceItem s nx ny := by
  unfold canPlaceItem
  rw [setBuilding, tileAt_setTile_ne _ h]
  rfl

theorem phaseATile_eq_mineTick {s : GameState} {x y : Int} {b : Building}
    (hbl : (tileAt s x y).building = some b) (hty : b.btype = .mine) :
    phaseATile s x y = mineTick s x y b := by
  simp only [phaseATile, hbl, hty]

/-- Blocked mine: if the target tile fails `canPlaceItem` the whole branch
only increments the progress counter. -/
theorem mineTick_blocked (s : GameState) (x y : Int) (b : Building)
    (hterr : ¬ (tileAt s x y).terrain = .empty)
    (hres : ¬ (tileAt s x y).resource ≤ 0)
    (hcan : canPlaceItem (setBuilding s x y { b with progress := b.progress + 1 })
        (stepInDir x y b.dir).1 (stepInDir x y b.dir).2 = false) :
    mineTick s x y b = setBuilding s x y { b with progress := b.progress + 1 } := by
  simp only [mineTick]
  rw [if_neg hterr, if_neg hres]
  split
  · rw [hcan]
    simp
  · rfl

/-- Projection lemmas for the stat-bump helpers. -/
@[simp] theorem bumpIronMined_items (s : GameState) : (bumpIronMined s).items = s.items := rfl
@[simp] theorem bumpCopperMined_items (s : GameState) : (bumpCopperMined s).items = s.items := rfl
@[simp] theorem bumpIronPlates_items (s : GameState) : (bumpIronPlates s).items = s.items := rfl
@[simp] theorem bumpCopperPlates_items (s : GameState) : (bumpCopperPlates s).items = s.items := rfl
@[simp] theorem bumpGearsCrafted_items (s : GameState) : (bumpGearsCrafted s).items = s.items := rfl
@[simp] theorem bumpWiresCrafted_items (s : GameState) : (bumpWiresCrafted s).items = s.items := rfl
@[simp] theorem bumpIronMined_tiles (s : GameState) : (bumpIronMined s).tiles = s.tiles := rfl
@[simp] theorem bumpCopperMined_tiles (s : GameState) : (bumpCopperMined s).tiles = s.tiles := rfl
@[simp] theorem bumpIronPlates_tiles (s : GameState) : (bumpIronPlates s).tiles = s.tiles := rfl
@[simp] theorem bumpCopperPlates_tiles (s : GameState) : (bumpCopperPlates s).tiles = s.tiles := rfl
@[simp] theorem bumpGearsCrafted_tiles (s : GameState) : (bumpGearsCrafted s).tiles = s.tiles := rfl
@[simp] theorem bumpWiresCrafted_tiles (s : GameState) : (bumpWiresCrafted s).tiles = s.tiles := rfl
@[simp] theorem bumpIronMined_inventory (s : GameState) :
    (bumpIronMined s).inventory = s.inventory := rfl
@[simp] theorem bumpCopperMined_inventory (s : GameState) :
    (bumpCopperMined s).inventory = s.inventory := rfl
@[simp] theorem bumpIronPlates_inventory (s : GameState) :
    (bumpIronPlates s).inventory = s.inventory := rfl
@[simp] theorem bumpCopperPlates_inventory (s : GameState) :
    (bumpCopperPlates s).inventory = s.inventory := rfl
@[simp] theorem bumpGearsCrafted_inventory (s : GameState) :
    (bumpGearsCrafted s).inventory = s.inventory := rfl
@[simp] theorem bumpWiresCrafted_inventory (s : GameState) :
    (bumpWiresCrafted s).inventory = s.inventory := rfl
@[simp] theorem bumpIronMined_stats (s : GameState) :
    (bumpIronMined s).stats = { s.stats with ironMined := s.stats.ironMined + 1 } := rfl
@[simp] theorem bumpCopperMined_stats (s : GameState) :
    (bumpCopperMined s).stats = { s.stats with copperMined := s.stats.copperMined + 1 } := rfl
@[simp] theorem bumpIronPlates_stats (s : GameState) :
    (bumpIronPlates s).stats = { s.stats with ironPlates := s.stats.ironPlates + 1 } := rfl
@[simp] theorem bumpCopperPlates_stats (s : GameState) :
    (bumpCopperPlates s).stats = { s.stats with copperPlates := s.stats.copperPlates + 1 } := rfl
@[simp] theorem bumpGearsCrafted_stats (s : GameState) :
    (bumpGearsCrafted s).stats = { s.stats with gearsCrafted := s.stats.gearsCrafted + 1 } := rfl
@[simp] theorem bumpWiresCrafted_stats (s : GameState) :
    (bumpWiresCrafted s).stats = { s.stats with wiresCrafted := s.stats.wiresCrafted + 1 } := rfl
@[simp] theorem tileAt_bumpIronMined (s : GameState) (x y : Int) :
    tileAt (bumpIronMined s) x y = tileAt s x y := rfl
@[simp] theorem tileAt_bumpCopperMined (s : GameState) (x y : Int) :
    tileAt (bumpCopperMined s) x y = tileAt s x y := rfl
@[simp] theorem itemAt_bumpIronMined (s : GameState) (x y : Int) :
    itemAt (bumpIronMined s) x y = itemAt s x y := rfl
@[simp] theorem itemAt_bumpCopperMined (s : GameState) (x y : Int) :
    itemAt (bumpCopperMined s) x y = itemAt s x y := rfl
@[simp] theorem itemAt_setBuilding (s : GameState) (x y a c : Int) (b : Building) :
    itemAt (setBuilding s x y b) a c = itemAt s a c := rfl

/-- Successful mine emission, traced through the per-tile production body:
under the guards of the `mine` branch, one ore matching the terrain appears
on the tile ahead, progress resets to `0`, the resource decrements (with
terrain reverting to empty at `0`), and the matching mined counter bumps. -/
theorem mineTick_emits (s : GameState) (x y : Int) (b : Building)
    (hw : Wf s) (hb : inBounds s x y = true)
    (hterr : ¬ (tileAt s x y).terrain = .empty)
    (hres : ¬ (tileAt s x y).resource ≤ 0)
    (hprog : MINE_TICKS ≤ b.progress + 1)
    (hcan : canPlaceItem s (stepInDir x y b.dir).1 (stepInDir x y b.dir).2 = true) :
    itemAt (mineTick s x y b) (stepInDir x y b.dir).1 (stepInDir x y b.dir).2
        = some (if (tileAt s x y).terrain = .iron then .ironOre else .copperOre) ∧
    (tileAt (mineTick s x y b) x y).building = some { b with progress := 0 } ∧
    (tileAt (mineTick s x y b) x y).resource
        = (if (tileAt s x y).resource - 1 ≤ 0 then 0 else (tileAt s x y).resource - 1) ∧
    (tileAt (mineTick s x y b) x y).terrain
        = (if (tileAt s x y).resource - 1 ≤ 0 then .empty else (tileAt s x y).terrain) ∧
    (mineTick s x y b).stats.ironMined
        = (if (tileAt s x y).terrain = .iron
           then s.stats.ironMined + 1 else s.stats.ironMined) ∧
    (mineTick s x y b).stats.copperMined
        = (if (tileAt s x y).terrain = .iron
           then s.stats.copperMined else s.stats.copperMined + 1) := by
  have hb2 : inBounds s (stepInDir x y b.dir).1 (stepInDir x y b.dir).2 = true :=
    (canPlaceItem_iff.mp hcan).1
  have hne : (stepInDir x y b.dir).1.toNat ≠ x.toNat ∨
      (stepInDir x y b.dir).2.toNat ≠ y.toNat := stepInDir_ne hb hb2
  have hcan1 : canPlaceItem
      (setBuilding s x y { b with progress := b.progress + 1 })
      (stepInDir x y b.dir).1 (stepInDir x y b.dir).2 = true := by
    rw [canPlaceItem_setBuilding_ne hne]
    exact hcan
  have hw1 : Wf (setBuilding s x y { b with progress := b.progress + 1 }) :=
    hw.setBuilding x y _
  have hw2 : Wf (setItem (setBuilding s x y { b with progress := b.progress + 1 })
      (stepInDir x y b.dir).1 (stepInDir x y b.dir).2
      (some (if (tileAt s x y).terrain = .iron then .ironOre else .copperOre))) :=
    hw1.setItem _ _ _
  have ht3 : tileAt (setBuilding (setItem
        (setBuilding s x y { b with progress := b.progress + 1 })
        (stepInDir x y b.dir).1 (stepInDir x y b.dir).2
        (some (if (tileAt s x y).terrain = .iron then .ironOre else .copperOre)))
        x y { b with progress := 0 }) x y
      = { tileAt s x y with building := some { b with progress := 0 } } := by
    rw [tileAt_setBuilding_self _ hw2 hb, tileAt_setItem,
      tileAt_setBuilding_self _ hw hb]
  have hw3 : Wf (setBuilding (setItem
      (setBuilding s x y { b with progress := b.progress + 1 })
      (stepInDir x y b.dir).1 (stepInDir x y b.dir).2
      (some (if (tileAt s x y).terrain = .iron then .ironOre else .copperOre)))
      x y { b with progress := 0 }) := hw2.setBuilding _ _ _
  have hitem : itemAt (setItem
      (setBuilding s x y { b with progress := b.progress + 1 })
      (stepInDir x y b.dir).1 (stepInDir x y b.dir).2
      (some (if (tileAt s x y).terrain = .iron then .ironOre else .copperOre)))
      (stepInDir x y b.dir).1 (stepInDir x y b.dir).2
      = some (if (tileAt s x y).terrain = .iron then .ironOre else .copperOre) :=
    itemAt_setItem_self _ hw1 hb2
  simp only [mineTick]
  rw [if_neg hterr, if_neg hres, if_pos hprog, if_pos hcan1]
  rw [tileAt_setBuilding_self _ hw hb]
  simp only [ht3]
  by_cases hiron : (tileAt s x y).terrain = .iron <;>
    by_cases hdep : (tileAt s x y).resource - 1 ≤ 0 <;>
      simp only [hiron, hdep, ite_true, ite_false, eq_self_iff_true,
        if_true, if_false] at hitem ht3 hw3 ⊢ <;>
      refine ⟨?_, ?_, ?_, ?_, ?_, ?_⟩ <;>
      simp [tileAt_setTile_self _ hw3 hb, hitem, ht3]

theorem canPlaceItem_false_of_oob {s : GameState} {x y : Int}
    (h : inBounds s x y = false) : canPlaceItem s x y = false := by
  unfold canPlaceItem
  rw [h]
  rfl

/-- **C3.**  Mine production: on a non-empty-terrain tile with positive
resource the mine's production body accumulates progress, and at full
progress with a legal target tile it emits one ore of the terrain's kind
onto the tile ahead, resets progress to 0, decrements the resource
(reverting terrain to empty at 0), and bumps the matching mined counter;
and in particular the concrete 3×3 / 4-step scenario produces exactly the
state the specification lists. -/
theorem mine_production_emission (s : GameState) (x y : Int) (b : Building)
    (hw : Wf s) (hb : inBounds s x y = true)
    (hbl : (tileAt s x y).building = some b) (hty : b.btype = .mine)
    (hterr : ¬ (tileAt s x y).terrain = .empty)
    (hres : 0 < (tileAt s x y).resource)
    (hprog : MINE_TICKS ≤ b.progress + 1)
    (hcan : canPlaceItem s (stepInDir x y b.dir).1 (stepInDir x y b.dir).2 = true) :
    (itemAt (phaseATile s x y) (stepInDir x y b.dir).1 (stepInDir x y b.dir).2
        = some (if (tileAt s x y).terrain = .iron then .ironOre else .copperOre) ∧
     (tileAt (phaseATile s x y) x y).building = some { b with progress := 0 } ∧
     (tileAt (phaseATile s x y) x y).resource
        = (if (tileAt s x y).resource - 1 ≤ 0 then 0 else (tileAt s x y).resource - 1) ∧
     (tileAt (phaseATile s x y) x y).terrain
        = (if (tileAt s x y).resource - 1 ≤ 0 then .empty else (tileAt s x y).terrain) ∧
     (phaseATile s x y).stats.ironMined
        = (if (tileAt s x y).terrain = .iron
           then s.stats.ironMined + 1 else s.stats.ironMined) ∧
     (phaseATile s x y).stats.copperMined
        = (if (tileAt s x y).terrain = .iron
           then s.stats.copperMined else s.stats.copperMined + 1)) ∧
    (itemAt (stepGame (stepGame (stepGame (stepGame mineScenario)))) 2 1
        = some .ironOre ∧
     (tileAt (stepGame (stepGame (stepGame (stepGame mineScenario)))) 1 1).resource = 0 ∧
     (tileAt (stepGame (stepGame (stepGame (stepGame mineScenario)))) 1 1).terrain
        = .empty ∧
     (stepGame (stepGame (stepGame (stepGame mineScenario)))).stats.ironMined = 1) := by
  constructor
  · have hres2 : ¬ (tileAt s x y).resource ≤ 0 := by omega
    rw [phaseATile_eq_mineTick hbl hty]
    exact mineTick_emits s x y b hw hb hterr hres2 hprog hcan
  · exact ⟨by decide, by decide, by decide, by decide⟩

/-- Witness: the general part of C3 applied to the concrete pre-emission
world `mineReady`. -/
theorem mine_production_emission_witness :
    itemAt (phaseATile mineReady 1 1) 2 1 = some ItemType.ironOre ∧
    (phaseATile mineReady 1 1).stats.ironMined = 1 :=
  have h := mine_production_emission mineReady 1 1
    { btype := .mine, dir := .right, progress := 3, buffer := createBuffer }
    (by decide) (by decide) (by decide) rfl (by decide) (by decide)
    (by decide) (by decide)
  ⟨h.1.1, h.1.2.2.2.2.1⟩

/-- **C4** (amended).  A mine whose emission target is blocked at the moment
its tile is processed keeps its tile's resource and terrain unchanged, emits
no item, changes no stats or inventory, and does not reset its progress:
instead of freezing exactly at the 4-tick threshold the counter keeps
incrementing by one each blocked tick, staying at or above full progress
until the target clears. -/
theorem mine_blocked_backpressure (s : GameState) (x y : Int) (b : Building)
    (hw : Wf s) (hb : inBounds s x y = true)
    (hbl : (tileAt s x y).building = some b) (hty : b.btype = .mine)
    (hterr : ¬ (tileAt s x y).terrain = .empty)
    (hres : 0 < (tileAt s x y).resource)
    (hprog : MINE_TICKS ≤ b.progress + 1)
    (hcan : canPlaceItem s (stepInDir x y b.dir).1 (stepInDir x y b.dir).2 = false) :
    phaseATile s x y = setBuilding s x y { b with progress := b.progress + 1 } ∧
    (tileAt (phaseATile s x y) x y).building
        = some { b with progress := b.progress + 1 } ∧
    MINE_TICKS ≤ b.progress + 1 ∧
    (tileAt (phaseATile s x y) x y).resource = (tileAt s x y).resource ∧
    (tileAt (phaseATile s x y) x y).terrain = (tileAt s x y).terrain ∧
    (phaseATile s x y).items = s.items ∧
    (phaseATile s x y).stats = s.stats ∧
    (phaseATile s x y).inventory = s.inventory := by
  have hres2 : ¬ (tileAt s x y).resource ≤ 0 := by omega
  have hcan1 : canPlaceItem
      (setBuilding s x y { b with progress := b.progress + 1 })
      (stepInDir x y b.dir).1 (stepInDir x y b.dir).2 = false := by
    by_cases hinb : inBounds s (stepInDir x y b.dir).1 (stepInDir x y b.dir).2 = true
    · rw [canPlaceItem_setBuilding_ne (stepInDir_ne hb hinb)]
      exact hcan
    · exact canPlaceItem_false_of_oob (by
        show inBounds s _ _ = false
        exact Bool.not_eq_true _ ▸ Bool.of_not_eq_true hinb)
  have heq : phaseATile s x y
      = setBuilding s x y { b with progress := b.progress + 1 } := by
    rw [phaseATile_eq_mineTick hbl hty]
    exact mineTick_blocked s x y b hterr hres2 hcan1
  rw [heq, tileAt_setBuilding_self _ hw hb]
  exact ⟨rfl, rfl, hprog, rfl, rfl, rfl, rfl, rfl⟩

/-- Counterexample to C4 as frozen: in `blockedMine` every blocked-mine
condition of the claim holds, the resource is indeed unchanged, but the
mine's progress counter advances from 4 to 5 over the step instead of being
"neither reset nor advancing". -/
theorem mine_blocked_progress_advances :
    (tileAt blockedMine 0 0).building
        = some { btype := .mine, dir := .right, progress := 4, buffer := createBuffer } ∧
    ¬ (tileAt blockedMine 0 0).terrain = .empty ∧
    0 < (tileAt blockedMine 0 0).resource ∧
    canPlaceItem blockedMine 1 0 = false ∧
    (tileAt (stepGame blockedMine) 0 0).resource = (tileAt blockedMine 0 0).resource ∧
    (tileAt (stepGame blockedMine) 0 0).building.map Building.progress = some 5 ∧
    ¬ ((tileAt (stepGame blockedMine) 0 0).building.map Building.progress
        = (tileAt blockedMine 0 0).building.map Building.progress) := by
  decide

/-- Witness: the amended C4 applied to the concrete world `blockedMine`. -/
theorem mine_blocked_backpressure_witness :
    (tileAt (phaseATile blockedMine 0 0) 0 0).building
        = some { btype := .mine, dir := .right, progress := 5, buffer := createBuffer } ∧
    (phaseATile blockedMine 0 0).stats = blockedMine.stats :=
  have h := mine_blocked_backpressure blockedMine 0 0
    { btype := .mine, dir := .right, progress := 4, buffer := createBuffer }
    (by decide) (by decide) (by decide) rfl (by decide) (by decide)
    (by decide) (by decide)
  ⟨h.2.1, h.2.2.2.2.2.2.1⟩

/-- Witness: the C5 affordability gate applied to the concrete `richWorld`. -/
theorem placeBuilding_afford_gate_witness :
    Wf richWorld ∧
    (canAffordBuild richWorld .mine = true ↔
      ∀ e ∈ BUILD_COSTS .mine, e.2 ≤ richWorld.inventory.get e.1) :=
  ⟨by decide, (placeBuilding_afford_gate richWorld 0 0 .mine .up (by decide)).2.2⟩

/-- Witness: the C9 legacy-remapping facts applied to `legacySnapshot`. -/
theorem normalizeState_legacy_witness :
    (normalizeState legacySnapshot).stats.ironMined = 7 ∧
    (normalizeState legacySnapshot).stats.ironPlates = 3 ∧
    normalizeItemType RItemType.ore = some ItemType.ironOre :=
  have h := normalizeState_legacy legacySnapshot
    { ironMined := none, copperMined := none, ironPlates := none,
      copperPlates := none, gearsCrafted := none, wiresCrafted := none,
      oreMined := some 7, platesSmelted := some 3 } rfl
  ⟨(h.2.2.2.2.2.2.1.1 rfl).trans (by decide),
    (h.2.2.2.2.2.2.2.1.1 rfl).trans (by decide), h.1.1⟩

/-! ## Belt transport: resolution against buildings (C6) and moves (C2) -/

/-- **C6.**  Phase-B resolution of a belt item against a non-belt building
on its destination tile: chest / hub credit the item to the inventory and
clear the source cell of the moved grid; a furnace accepts only an ore with
both ore buffer slots empty, resetting its progress and clearing the source,
and otherwise leaves everything unchanged; a mine never accepts. -/
theorem beltTile_nonbelt_resolution (s : GameState) (m : ItemGrid) (x y : Int)
    (it : ItemType) (b db : Building)
    (hit : itemAt s x y = some it)
    (hbl : (tileAt s x y).building = some b) (hbelt : b.btype = .belt)
    (hinb : inBounds s (stepInDir x y b.dir).1 (stepInDir x y b.dir).2 = true)
    (hdb : (tileAt s (stepInDir x y b.dir).1 (stepInDir x y b.dir).2).building
        = some db) :
    ((db.btype = .chest ∨ db.btype = .hub) →
      beltTile s m x y
        = ({ s with inventory := s.inventory.add it 1 }, gridSet m x y none)) ∧
    (db.btype = .furnace →
      (((it = .ironOre ∨ it = .copperOre) ∧
          db.buffer.ironOre = 0 ∧ db.buffer.copperOre = 0) →
        beltTile s m x y
          = (setBuilding s (stepInDir x y b.dir).1 (stepInDir x y b.dir).2
              { db with buffer := db.buffer.add it 1, progress := 0 },
             gridSet m x y none)) ∧
      (¬ ((it = .ironOre ∨ it = .copperOre) ∧
          db.buffer.ironOre = 0 ∧ db.buffer.copperOre = 0) →
        beltTile s m x y = (s, m))) ∧
    (db.btype = .mine → beltTile s m x y = (s, m)) := by
  simp only [beltTile, hit, hbl, hbelt, hinb, hdb]
  refine ⟨?_, ?_, ?_⟩
  · intro hch
    rcases hch with hch | hch <;> simp [hch]
  · intro hfu
    constructor
    · intro hacc
      simp [hfu, hacc]
    · intro hrej
      simp [hfu, hrej]
  · intro hmi
    simp [hmi]

/-- Phase-B move of a belt item towards an unobstructed destination (no
building or a belt): the item moves exactly when the destination cell of the
`moved` grid is empty, and otherwise nothing at all changes. -/
theorem beltTile_move_dest (s : GameState) (m : ItemGrid) (x y : Int)
    (it : ItemType) (b : Building)
    (hit : itemAt s x y = some it)
    (hbl : (tileAt s x y).building = some b) (hbelt : b.btype = .belt)
    (hinb : inBounds s (stepInDir x y b.dir).1 (stepInDir x y b.dir).2 = true)
    (hdest : (tileAt s (stepInDir x y b.dir).1 (stepInDir x y b.dir).2).building = none ∨
      ∃ db, (tileAt s (stepInDir x y b.dir).1 (stepInDir x y b.dir).2).building
          = some db ∧ db.btype = .belt) :
    (gridGet m (stepInDir x y b.dir).1 (stepInDir x y b.dir).2 = none →
      beltTile s m x y
        = (s, gridSet (gridSet m (stepInDir x y b.dir).1 (stepInDir x y b.dir).2
            (some it)) x y none)) ∧
    (¬ gridGet m (stepInDir x y b.dir).1 (stepInDir x y b.dir).2 = none →
      beltTile s m x y = (s, m)) := by
  rcases hdest with hdest | ⟨db, hdb, hdbelt⟩
  · simp only [beltTile, hit, hbl, hbelt, hinb, hdest]
    constructor
    · intro hg
      simp [hg]
    · intro hg
      simp [hg]
  · simp only [beltTile, hit, hbl, hbelt, hinb, hdb, hdbelt]
    constructor
    · intro hg
      simp [hg]
    · intro hg
      simp [hg]

theorem coordOf_add_left (w h x : Nat) (hx : x < w) :
    coordOf w (h * w + x) = ((x : Int), (h : Int)) := by
  have hw : 0 < w := lt_of_le_of_lt (Nat.zero_le x) hx
  unfold coordOf
  have h1 : (h * w + x) % w = x := by
    rw [Nat.add_comm, Nat.mul_comm, Nat.add_mul_mod_self_left, Nat.mod_eq_of_lt hx]
  have h2 : (h * w + x) / w = h := by
    rw [Nat.add_comm, Nat.add_mul_div_right _ _ hw, Nat.div_eq_of_lt hx, Nat.zero_add]
  rw [h1, h2]

theorem coords_eq_map (w h : Nat) :
    coords w h = (List.range (h * w)).map (coordOf w) := by
  induction h with
  | zero => simp [coords]
  | succ h ih =>
    have hl : (List.range h).flatMap
        (fun (y : Nat) => (List.range w).map fun (x : Nat) => ((x : Int), (y : Int)))
        = coords w h := rfl
    rw [coords, List.range_succ, List.flatMap_append, hl, ih, Nat.succ_mul,
      List.range_add, List.map_append]
    congr 1
    rw [List.flatMap_cons, List.flatMap_nil, List.append_nil, List.map_map]
    refine List.map_congr_left fun x hx => ?_
    rw [List.mem_range] at hx
    simp only [Function.comp]
    exact (coordOf_add_left w h x hx).symm

theorem rmIdx_coordOf (w n : Nat) (_hw : 0 < w) : rmIdx w (coordOf w n) = n := by
  unfold rmIdx coordOf
  simp only [Int.toNat_natCast]
  rw [Nat.mul_comm]
  exact Nat.div_add_mod n w

theorem coordOf_rmIdx {s : GameState} {p : Int × Int}
    (hb : inBounds s p.1 p.2 = true) : coordOf s.width (rmIdx s.width p) = p := by
  rw [inBounds_iff] at hb
  unfold rmIdx coordOf
  have h1 : (p.2.toNat * s.width + p.1.toNat) % s.width = p.1.toNat := by
    rw [Nat.add_comm, Nat.mul_comm, Nat.add_mul_mod_self_left,
      Nat.mod_eq_of_lt (by omega)]
  have h2 : (p.2.toNat * s.width + p.1.toNat) / s.width = p.2.toNat := by
    rw [Nat.add_comm, Nat.add_mul_div_right _ _ (by omega),
      Nat.div_eq_of_lt (by omega), Nat.zero_add]
  rw [h1, h2]
  have := hb.1
  have := hb.2.1
  ext
  · simp
    omega
  · simp
    omega

theorem rmIdx_lt {s : GameState} {p : Int × Int}
    (hb : inBounds s p.1 p.2 = true) : rmIdx s.width p < s.height * s.width := by
  rw [inBounds_iff] at hb
  unfold rmIdx
  have h1 : p.1.toNat < s.width := by omega
  have h2 : p.2.toNat < s.height := by omega
  calc p.2.toNat * s.width + p.1.toNat
      < p.2.toNat * s.width + s.width := by omega
    _ = (p.2.toNat + 1) * s.width := by ring
    _ ≤ s.height * s.width := Nat.mul_le_mul_right _ (by omega)

theorem mem_coords_inBounds {s : GameState} {p : Int × Int}
    (hp : p ∈ coords s.width s.height) : inBounds s p.1 p.2 = true := by
  rw [coords_eq_map, List.mem_map] at hp
  obtain ⟨n, hn, rfl⟩ := hp
  rw [List.mem_range] at hn
  have hw : 0 < s.width := by
    rcases Nat.eq_zero_or_pos s.width with h | h
    · rw [h, Nat.mul_zero] at hn
      exact absurd hn (Nat.not_lt_zero n)
    · exact h
  rw [inBounds_iff]
  unfold coordOf
  have h3 : n % s.width < s.width := Nat.mod_lt n hw
  have h4 : n / s.width < s.height :=
    Nat.div_lt_of_lt_mul (by rw [Nat.mul_comm]; exact hn)
  refine ⟨?_, ?_, ?_, ?_⟩
  · show (0 : Int) ≤ ((n % s.width : Nat) : Int)
    positivity
  · show (0 : Int) ≤ ((n / s.width : Nat) : Int)
    positivity
  · show ((n % s.width : Nat) : Int) < (s.width : Int)
    exact_mod_cast h3
  · show ((n / s.width : Nat) : Int) < (s.height : Int)
    exact_mod_cast h4

theorem inBounds_mem_coords {s : GameState} {p : Int × Int}
    (hb : inBounds s p.1 p.2 = true) : p ∈ coords s.width s.height := by
  rw [coords_eq_map, List.mem_map]
  exact ⟨rmIdx s.width p, List.mem_range.mpr (rmIdx_lt hb), coordOf_rmIdx hb⟩

theorem coords_nodup (w h : Nat) : (coords w h).Nodup := by
  rcases Nat.eq_zero_or_pos w with hw | hw
  · subst hw
    have : coords 0 h = [] := by
      rw [coords_eq_map]
      simp
    rw [this]
    exact List.nodup_nil
  · rw [coords_eq_map]
    exact (List.nodup_range _).map_on fun a ha b hb hab => by
      have h1 := rmIdx_coordOf w a hw
      have h2 := rmIdx_coordOf w b hw
      rw [← h1, ← h2, hab]

/-! ## Phase-B fold invariants -/

theorem gridGet_congr {m : ItemGrid} {a c a' c' : Int}
    (h1 : a.toNat = a'.toNat) (h2 : c.toNat = c'.toNat) :
    gridGet m a c = gridGet m a' c' := by
  unfold gridGet cell
  rw [h1, h2]

theorem tileAt_congr {s : GameState} {a c a' c' : Int}
    (h1 : a.toNat = a'.toNat) (h2 : c.toNat = c'.toNat) :
    tileAt s a c = tileAt s a' c' := by
  unfold tileAt cell
  rw [h1, h2]

theorem inBounds_ne_toNat {s : GameState} {a c a' c' : Int}
    (h1 : inBounds s a c = true) (h2 : inBounds s a' c' = true)
    (hne : ¬(a = a' ∧ c = c')) :
    a.toNat ≠ a'.toNat ∨ c.toNat ≠ c'.toNat := by
  rw [inBounds_iff] at h1 h2
  omega

theorem beltTile_skip_noitem {s : GameState} {m : ItemGrid} {x y : Int}
    (h : itemAt s x y = none) : beltTile s m x y = (s, m) := by
  simp only [beltTile, h]

/-- Effect on the moved grid of one item move (`moved[ny][nx] = item;
moved[y][x] = null`), seen from an arbitrary cell `(a, c)`. -/
theorem gridGet_move_write (s : GameState) (m : ItemGrid) {x y dx dy : Int}
    (a c : Int) (i : ItemType) (hm : GridDims m s.width s.height)
    (hxy : inBounds s x y = true) (hd : inBounds s dx dy = true) :
    gridGet (gridSet (gridSet m dx dy (some i)) x y none) a c = gridGet m a c ∨
    (a.toNat = x.toNat ∧ c.toNat = y.toNat ∧
      gridGet (gridSet (gridSet m dx dy (some i)) x y none) a c = none) ∨
    (a.toNat = dx.toNat ∧ c.toNat = dy.toNat ∧
      gridGet (gridSet (gridSet m dx dy (some i)) x y none) a c = some i) := by
  by_cases hsc : a.toNat = x.toNat ∧ c.toNat = y.toNat
  · refine Or.inr (Or.inl ⟨hsc.1, hsc.2, ?_⟩)
    rw [gridGet_congr hsc.1 hsc.2]
    exact gridGet_gridSet_self _ (hm.setCell _ _ _)
      (toNat_lt_of_inBounds_x hxy) (toNat_lt_of_inBounds_y hxy)
  · rw [not_and_or] at hsc
    by_cases hdc : a.toNat = dx.toNat ∧ c.toNat = dy.toNat
    · refine Or.inr (Or.inr ⟨hdc.1, hdc.2, ?_⟩)
      rw [gridGet_gridSet_ne _ (by tauto), gridGet_congr hdc.1 hdc.2]
      exact gridGet_gridSet_self _ hm
        (toNat_lt_of_inBounds_x hd) (toNat_lt_of_inBounds_y hd)
    · rw [not_and_or] at hdc
      left
      rw [gridGet_gridSet_ne _ (by tauto), gridGet_gridSet_ne _ (by tauto)]

/-- Effect of a source-clear write (`moved[y][x] = null`), seen from an
arbitrary cell. -/
theorem gridGet_clear_write (s : GameState) (m : ItemGrid) {x y : Int}
    (a c : Int) (hm : GridDims m s.width s.height)
    (hxy : inBounds s x y = true) :
    gridGet (gridSet m x y none) a c = gridGet m a c ∨
    (a.toNat = x.toNat ∧ c.toNat = y.toNat ∧
      gridGet (gridSet m x y none) a c = none) := by
  by_cases hsc : a.toNat = x.toNat ∧ c.toNat = y.toNat
  · refine Or.inr ⟨hsc.1, hsc.2, ?_⟩
    rw [gridGet_congr hsc.1 hsc.2]
    exact gridGet_gridSet_self _ hm
      (toNat_lt_of_inBounds_x hxy) (toNat_lt_of_inBounds_y hxy)
  · rw [not_and_or] at hsc
    left
    rw [gridGet_gridSet_ne _ (by tauto)]

/-- Resolution against a non-belt destination building either clears the
source cell of the moved grid or leaves the moved grid unchanged. -/
theorem beltTile_resolution_moved (s : GameState) (m : ItemGrid) {x y : Int}
    {it : ItemType} {b db : Building}
    (hit : itemAt s x y = some it)
    (hbl : (tileAt s x y).building = some b) (hbelt : b.btype = .belt)
    (hinb : inBounds s (stepInDir x y b.dir).1 (stepInDir x y b.dir).2 = true)
    (hdb : (tileAt s (stepInDir x y b.dir).1 (stepInDir x y b.dir).2).building
        = some db)
    (hnb : ¬ db.btype = .belt) :
    (beltTile s m x y).2 = gridSet m x y none ∨ (beltTile s m x y).2 = m := by
  simp only [beltTile, hit, hbl, hbelt, hinb, hdb]
  simp only [if_neg hnb, if_true, ite_true]
  repeat' split
  all_goals first
    | exact Or.inl rfl
    | exact Or.inr rfl

/-- Master characterization of one phase-B loop body's effect on the moved
grid: every cell is unchanged, or is the processed tile's source cell being
cleared, or is the processed belt's destination cell receiving its item
(which requires that destination cell of the moved grid to have been empty). -/
theorem beltTile_moved_spec (s : GameState) (m : ItemGrid) (x y a c : Int)
    (hm : GridDims m s.width s.height) (hxy : inBounds s x y = true) :
    gridGet (beltTile s m x y).2 a c = gridGet m a c ∨
    (∃ i bb, itemAt s x y = some i ∧ (tileAt s x y).building = some bb ∧
      bb.btype = .belt ∧
      ((a.toNat = x.toNat ∧ c.toNat = y.toNat ∧
          gridGet (beltTile s m x y).2 a c = none) ∨
       (a.toNat = (stepInDir x y bb.dir).1.toNat ∧
          c.toNat = (stepInDir x y bb.dir).2.toNat ∧
          inBounds s (stepInDir x y bb.dir).1 (stepInDir x y bb.dir).2 = true ∧
          gridGet m (stepInDir x y bb.dir).1 (stepInDir x y bb.dir).2 = none ∧
          gridGet (beltTile s m x y).2 a c = some i))) := by
  rcases h1 : itemAt s x y with _ | it
  · left
    rw [beltTile_skip_noitem h1]
  rcases h2 : (tileAt s x y).building with _ | bb
  · left
    simp only [beltTile, h1, h2]
  by_cases h3 : bb.btype = .belt
  · by_cases h4 : inBounds s (stepInDir x y bb.dir).1 (stepInDir x y bb.dir).2 = true
    · rcases h5 : (tileAt s (stepInDir x y bb.dir).1 (stepInDir x y bb.dir).2).building
        with _ | db
      · by_cases h6 : gridGet m (stepInDir x y bb.dir).1 (stepInDir x y bb.dir).2 = none
        · have hred := (beltTile_move_dest s m x y it bb h1 h2 h3 h4 (Or.inl h5)).1 h6
          rw [hred]
          rcases gridGet_move_write s m a c it hm hxy h4 with h | h | h
          · left
            exact h
          · exact Or.inr ⟨it, bb, rfl, rfl, h3, Or.inl ⟨h.1, h.2.1, h.2.2⟩⟩
          · exact Or.inr ⟨it, bb, rfl, rfl, h3,
              Or.inr ⟨h.1, h.2.1, h4, h6, h.2.2⟩⟩
        · have hred := (beltTile_move_dest s m x y it bb h1 h2 h3 h4 (Or.inl h5)).2 h6
          rw [hred]
          left
          rfl
      · by_cases h6 : db.btype = .belt
        · by_cases h7 : gridGet m (stepInDir x y bb.dir).1 (stepInDir x y bb.dir).2 = none
          · have hred := (beltTile_move_dest s m x y it bb h1 h2 h3 h4
              (Or.inr ⟨db, h5, h6⟩)).1 h7
            rw [hred]
            rcases gridGet_move_write s m a c it hm hxy h4 with h | h | h
            · left
              exact h
            · exact Or.inr ⟨it, bb, rfl, rfl, h3, Or.inl ⟨h.1, h.2.1, h.2.2⟩⟩
            · exact Or.inr ⟨it, bb, rfl, rfl, h3,
                Or.inr ⟨h.1, h.2.1, h4, h7, h.2.2⟩⟩
          · have hred := (beltTile_move_dest s m x y it bb h1 h2 h3 h4
              (Or.inr ⟨db, h5, h6⟩)).2 h7
            rw [hred]
            left
            rfl
        · rcases beltTile_resolution_moved s m h1 h2 h3 h4 h5 h6 with hred | hred
          · rw [hred]
            rcases gridGet_clear_write s m a c hm hxy with h | h
            · left
              exact h
            · exact Or.inr ⟨it, bb, rfl, rfl, h3, Or.inl ⟨h.1, h.2.1, h.2.2⟩⟩
          · rw [hred]
            left
            rfl
    · left
      simp only [beltTile, h1, h2, h3]
      rw [if_neg h4]
      simp
  · left
    simp only [beltTile, h1, h2]
    rw [if_neg h3]

theorem beltTile_wf {s : GameState} (m : ItemGrid) (x y : Int) (hw : Wf s) :
    Wf (beltTile s m x y).1 := by
  simp only [beltTile]
  repeat' split
  all_goals first
    | exact hw
    | exact hw.setBuilding _ _ _

theorem beltTile_moved_dims {s : GameState} {m : ItemGrid} (x y : Int)
    (hm : GridDims m s.width s.height) :
    GridDims (beltTile s m x y).2 s.width s.height := by
  simp only [beltTile]
  repeat' split
  all_goals first
    | exact hm
    | exact hm.setCell _ _ _
    | exact (hm.setCell _ _ _).setCell _ _ _

theorem beltSig_setBuilding {s : GameState} {x y : Int} {nb db : Building}
    (hw : Wf s) (hb : inBounds s x y = true)
    (hdb : (tileAt s x y).building = some db)
    (hty : nb.btype = db.btype) (hdir : nb.dir = db.dir) (a c : Int) :
    beltSig (setBuilding s x y nb) a c = beltSig s a c := by
  by_cases h : a.toNat = x.toNat ∧ c.toNat = y.toNat
  · unfold beltSig
    have hcg : tileAt s a c = tileAt s x y := tileAt_congr h.1 h.2
    have hcg2 : tileAt (setBuilding s x y nb) a c
        = tileAt (setBuilding s x y nb) x y := tileAt_congr h.1 h.2
    rw [hcg2, tileAt_setBuilding_self _ hw hb, hcg, hdb]
    simp [hty, hdir]
  · rw [not_and_or] at h
    unfold beltSig
    rw [tileAt_setBuilding_ne _ (by tauto)]

theorem beltTile_sig (s : GameState) (m : ItemGrid) (x y a c : Int) (hw : Wf s) :
    beltSig (beltTile s m x y).1 a c = beltSig s a c := by
  rcases h1 : itemAt s x y with _ | it
  · rw [beltTile_skip_noitem h1]
  rcases h2 : (tileAt s x y).building with _ | bb
  · simp only [beltTile, h1, h2]
  simp only [beltTile, h1, h2]
  by_cases h3 : bb.btype = .belt
  case neg =>
    rw [if_neg h3]
  rw [if_pos h3]
  by_cases h4 : inBounds s (stepInDir x y bb.dir).1 (stepInDir x y bb.dir).2 = true
  case neg =>
    rw [if_neg h4]
  rw [if_pos h4]
  rcases h5 : (tileAt s (stepInDir x y bb.dir).1 (stepInDir x y bb.dir).2).building
      with _ | db
  · simp only [h5]
    split <;> rfl
  simp only [h5]
  by_cases h6 : db.btype = .belt
  · rw [if_pos h6]
    split <;> rfl
  rw [if_neg h6]
  by_cases h7 : db.btype = .chest ∨ db.btype = .hub
  · rw [if_pos h7]
    rfl
  rw [if_neg h7]
  by_cases h8 : db.btype = .furnace
  · rw [if_pos h8]
    split
    · refine beltSig_setBuilding hw h4 h5 ?_ ?_ a c <;> rfl
    · rfl
  rw [if_neg h8]
  by_cases h9 : db.btype = .assembler
  · rw [if_pos h9]
    split
    · refine beltSig_setBuilding hw h4 h5 ?_ ?_ a c <;> rfl
    · rfl
  rw [if_neg h9]
  by_cases h10 : db.btype = .wireMill
  · rw [if_pos h10]
    split
    · refine beltSig_setBuilding hw h4 h5 ?_ ?_ a c <;> rfl
    · rfl
  rw [if_neg h10]

theorem foldB_cons (p : Int × Int) (L : List (Int × Int)) (sm : GameState × ItemGrid) :
    foldB (p :: L) sm = foldB L (beltTile sm.1 sm.2 p.1 p.2) := rfl

theorem foldB_items (L : List (Int × Int)) (sm : GameState × ItemGrid) :
    (foldB L sm).1.items = sm.1.items := by
  induction L generalizing sm with
  | nil => rfl
  | cons p L ih =>
    rw [foldB_cons, ih _]
    exact beltTile_items sm.1 sm.2 p.1 p.2

theorem foldB_core (L : List (Int × Int)) (sm : GameState × ItemGrid) :
    SameCore sm.1 (foldB L sm).1 :=
  foldl_beltTile_core L sm

theorem foldB_wf (L : List (Int × Int)) (sm : GameState × ItemGrid)
    (hw : Wf sm.1) : Wf (foldB L sm).1 := by
  induction L generalizing sm with
  | nil => exact hw
  | cons p L ih =>
    rw [foldB_cons]
    exact ih _ (beltTile_wf sm.2 p.1 p.2 hw)

theorem foldB_sig (L : List (Int × Int)) (sm : GameState × ItemGrid)
    (hw : Wf sm.1) (a c : Int) :
    beltSig (foldB L sm).1 a c = beltSig sm.1 a c := by
  induction L generalizing sm with
  | nil => rfl
  | cons p L ih =>
    rw [foldB_cons, ih _ (beltTile_wf sm.2 p.1 p.2 hw)]
    exact beltTile_sig sm.1 sm.2 p.1 p.2 a c hw

theorem foldB_dims (L : List (Int × Int)) (sm : GameState × ItemGrid)
    (hw : Wf sm.1) (hm : GridDims sm.2 sm.1.width sm.1.height) :
    GridDims (foldB L sm).2 sm.1.width sm.1.height := by
  induction L generalizing sm with
  | nil => exact hm
  | cons p L ih =>
    rw [foldB_cons]
    have hcore := beltTile_core sm.1 sm.2 p.1 p.2
    have hm' : GridDims (beltTile sm.1 sm.2 p.1 p.2).2
        (beltTile sm.1 sm.2 p.1 p.2).1.width (beltTile sm.1 sm.2 p.1 p.2).1.height := by
      rw [hcore.1, hcore.2.1]
      exact beltTile_moved_dims p.1 p.2 hm
    have h2 := ih (beltTile sm.1 sm.2 p.1 p.2) (beltTile_wf sm.2 p.1 p.2 hw) hm'
    rw [hcore.1, hcore.2.1] at h2
    exact h2

/-- An occupied cell of the moved grid survives a stretch of the phase-B
fold in which every processed tile is either a different cell or has no
snapshot item. -/
theorem foldB_preserve_some (L : List (Int × Int)) (sm : GameState × ItemGrid)
    (a c : Int) (v : ItemType)
    (hw : Wf sm.1) (hm : GridDims sm.2 sm.1.width sm.1.height)
    (hv : gridGet sm.2 a c = some v)
    (hL : ∀ p ∈ L, inBounds sm.1 p.1 p.2 = true)
    (hsk : ∀ p ∈ L, (p.1.toNat ≠ a.toNat ∨ p.2.toNat ≠ c.toNat) ∨
        itemAt sm.1 p.1 p.2 = none) :
    gridGet (foldB L sm).2 a c = some v := by
  induction L generalizing sm with
  | nil => exact hv
  | cons p L ih =>
    rw [foldB_cons]
    have hpb : inBounds sm.1 p.1 p.2 = true := hL p (List.mem_cons_self p L)
    have hstep : gridGet (beltTile sm.1 sm.2 p.1 p.2).2 a c = some v := by
      rcases hsk p (List.mem_cons_self p L) with hne | hni
      · rcases beltTile_moved_spec sm.1 sm.2 p.1 p.2 a c hm hpb with h | h
        · rw [h]
          exact hv
        · obtain ⟨i, bb, hi, hbb, hbt, hcase⟩ := h
          rcases hcase with ⟨ha, hc, _⟩ | ⟨ha, hc, _, hdn, _⟩
          · rcases hne with hne | hne
            · exact absurd ha.symm hne
            · exact absurd hc.symm hne
          · exfalso
            rw [gridGet_congr ha hc, hdn] at hv
            exact Option.noConfusion hv
      · rw [beltTile_skip_noitem hni]
        exact hv
    have hcore := beltTile_core sm.1 sm.2 p.1 p.2
    have hit := beltTile_items sm.1 sm.2 p.1 p.2
    have hm' : GridDims (beltTile sm.1 sm.2 p.1 p.2).2
        (beltTile sm.1 sm.2 p.1 p.2).1.width
        (beltTile sm.1 sm.2 p.1 p.2).1.height := by
      rw [hcore.1, hcore.2.1]
      exact beltTile_moved_dims p.1 p.2 hm
    refine ih _ (beltTile_wf sm.2 p.1 p.2 hw) hm' hstep ?_ ?_
    · intro q hq
      rw [inBounds_congr q.1 q.2 hcore.1 hcore.2.1]
      exact hL q (List.mem_cons_of_mem p hq)
    · intro q hq
      rcases hsk q (List.mem_cons_of_mem p hq) with h | h
      · exact Or.inl h
      · refine Or.inr ?_
        show itemAt _ q.1 q.2 = none
        unfold itemAt
        rw [hit]
        exact h

/-- An empty cell of the moved grid, empty in the item snapshot too, stays
empty through a stretch of the phase-B fold in which no processed belt tile
feeds it. -/
theorem foldB_preserve_none (L : List (Int × Int)) (sm : GameState × ItemGrid)
    (dx dy : Int)
    (hw : Wf sm.1) (hm : GridDims sm.2 sm.1.width sm.1.height)
    (hd : gridGet sm.2 dx dy = none)
    (hdi : inBounds sm.1 dx dy = true)
    (hL : ∀ p ∈ L, inBounds sm.1 p.1 p.2 = true)
    (hnf : ∀ p ∈ L, ∀ i bb, itemAt sm.1 p.1 p.2 = some i →
        (tileAt sm.1 p.1 p.2).building = some bb → bb.btype = .belt →
        ¬ stepInDir p.1 p.2 bb.dir = (dx, dy)) :
    gridGet (foldB L sm).2 dx dy = none := by
  induction L generalizing sm with
  | nil => exact hd
  | cons p L ih =>
    rw [foldB_cons]
    have hpb : inBounds sm.1 p.1 p.2 = true := hL p (List.mem_cons_self p L)
    have hstep : gridGet (beltTile sm.1 sm.2 p.1 p.2).2 dx dy = none := by
      rcases beltTile_moved_spec sm.1 sm.2 p.1 p.2 dx dy hm hpb with h | h
      · rw [h]
        exact hd
      · obtain ⟨i, bb, hi, hbb, hbt, hcase⟩ := h
        rcases hcase with ⟨_, _, hres⟩ | ⟨ha, hc, hdb2, _, _⟩
        · exact hres
        · exfalso
          have hdeq : stepInDir p.1 p.2 bb.dir = (dx, dy) := by
            have h1 := (inBounds_iff.mp hdb2).1
            have h2 := (inBounds_iff.mp hdb2).2.1
            have h3 := (inBounds_iff.mp hdi).1
            have h4 := (inBounds_iff.mp hdi).2.1
            have : (stepInDir p.1 p.2 bb.dir).1 = dx := by omega
            have : (stepInDir p.1 p.2 bb.dir).2 = dy := by omega
            ext <;> simp <;> omega
          exact hnf p (List.mem_cons_self p L) i bb hi hbb hbt hdeq
    have hcore := beltTile_core sm.1 sm.2 p.1 p.2
    have hit := beltTile_items sm.1 sm.2 p.1 p.2
    have hm' : GridDims (beltTile sm.1 sm.2 p.1 p.2).2
        (beltTile sm.1 sm.2 p.1 p.2).1.width
        (beltTile sm.1 sm.2 p.1 p.2).1.height := by
      rw [hcore.1, hcore.2.1]
      exact beltTile_moved_dims p.1 p.2 hm
    refine ih _ (beltTile_wf sm.2 p.1 p.2 hw) hm' hstep ?_ ?_ ?_
    · rw [inBounds_congr dx dy hcore.1 hcore.2.1]
      exact hdi
    · intro q hq
      rw [inBounds_congr q.1 q.2 hcore.1 hcore.2.1]
      exact hL q (List.mem_cons_of_mem p hq)
    · intro q hq i bb hi hbb hbt
      have hqb : inBounds sm.1 q.1 q.2 = true := hL q (List.mem_cons_of_mem p hq)
      have hsig := beltTile_sig sm.1 sm.2 p.1 p.2 q.1 q.2 hw
      have hsig2 : beltSig sm.1 q.1 q.2 = some (bb.btype, bb.dir) := by
        rw [← hsig]
        unfold beltSig
        rw [hbb]
        rfl
      unfold beltSig at hsig2
      rw [Option.map_eq_some'] at hsig2
      obtain ⟨bb0, hbb0, hval⟩ := hsig2
      have hty0 : bb0.btype = bb.btype := congrArg Prod.fst hval
      have hdir0 : bb0.dir = bb.dir := congrArg Prod.snd hval
      have hi0 : itemAt sm.1 q.1 q.2 = some i := by
        unfold itemAt at hi ⊢
        rw [hit] at hi
        exact hi
      have := hnf q (List.mem_cons_of_mem p hq) i bb0 hi0 hbb0 (hty0.trans hbt)
      rw [hdir0] at this
      exact this

/-! ## Splitting the scan order around two positions -/

theorem range_split1 {n N : Nat} (h : n < N) :
    List.range N
      = List.range n ++ n :: (List.range (N - n - 1)).map (fun j => n + 1 + j) := by
  conv_lhs => rw [show N = n + (1 + (N - n - 1)) by omega]
  rw [List.range_add]
  congr 1
  rw [Nat.add_comm 1 (N - n - 1), List.range_succ_eq_map, List.map_cons,
    Nat.add_zero, List.map_map]
  congr 1
  refine List.map_congr_left fun j _ => ?_
  simp only [Function.comp, Nat.succ_eq_add_one]
  omega

theorem range_split2 {n1 n2 N : Nat} (h1 : n1 < n2) (h2 : n2 < N) :
    List.range N
      = List.range n1
        ++ n1 :: ((List.range (n2 - n1 - 1)).map (fun j => n1 + 1 + j)
        ++ n2 :: (List.range (N - n2 - 1)).map (fun j => n2 + 1 + j)) := by
  rw [range_split1 (lt_trans h1 h2)]
  have htail : (List.range (N - n1 - 1)).map (fun j => n1 + 1 + j)
      = (List.range (n2 - n1 - 1)).map (fun j => n1 + 1 + j)
        ++ n2 :: (List.range (N - n2 - 1)).map (fun j => n2 + 1 + j) := by
    rw [range_split1 (show n2 - n1 - 1 < N - n1 - 1 by omega), List.map_append,
      List.map_cons, List.map_map]
    congr 1
    congr 1
    · omega
    · rw [show N - n1 - 1 - (n2 - n1 - 1) - 1 = N - n2 - 1 by omega]
      refine List.map_congr_left fun j _ => ?_
      simp only [Function.comp]
      omega
  rw [htail]

theorem width_pos {s : GameState} {x y : Int} (hb : inBounds s x y = true) :
    0 < s.width := by
  rw [inBounds_iff] at hb
  omega

theorem coordOf_inBounds {s : GameState} {n : Nat} (hn : n < s.height * s.width) :
    inBounds s (coordOf s.width n).1 (coordOf s.width n).2 = true := by
  apply mem_coords_inBounds
  rw [coords_eq_map]
  exact List.mem_map.mpr ⟨n, List.mem_range.mpr hn, rfl⟩

/-- The row-major scan order around two in-bounds positions, the first
scanned strictly earlier: the three surrounding chunks contain neither
position (first chunk) or at least not the second position (later chunks),
and consist of in-bounds cells only. -/
theorem coords_split_two {s : GameState} {p1 p2 : Int × Int}
    (hb1 : inBounds s p1.1 p1.2 = true) (hb2 : inBounds s p2.1 p2.2 = true)
    (hlt : rmIdx s.width p1 < rmIdx s.width p2) :
    ∃ A B C : List (Int × Int),
      coords s.width s.height = A ++ p1 :: (B ++ p2 :: C) ∧
      (∀ q ∈ A, inBounds s q.1 q.2 = true ∧ q ≠ p1 ∧ q ≠ p2) ∧
      (∀ q ∈ B, inBounds s q.1 q.2 = true ∧ q ≠ p2) ∧
      (∀ q ∈ C, inBounds s q.1 q.2 = true ∧ q ≠ p2) := by
  have hw0 : 0 < s.width := width_pos hb1
  have hN1 : rmIdx s.width p1 < s.height * s.width := rmIdx_lt hb1
  have hN2 : rmIdx s.width p2 < s.height * s.width := rmIdx_lt hb2
  refine ⟨(List.range (rmIdx s.width p1)).map (coordOf s.width),
    ((List.range (rmIdx s.width p2 - rmIdx s.width p1 - 1)).map
      (fun j => rmIdx s.width p1 + 1 + j)).map (coordOf s.width),
    ((List.range (s.height * s.width - rmIdx s.width p2 - 1)).map
      (fun j => rmIdx s.width p2 + 1 + j)).map (coordOf s.width), ?_, ?_, ?_, ?_⟩
  · rw [coords_eq_map, range_split2 hlt hN2, List.map_append, List.map_cons,
      List.map_append, List.map_cons, coordOf_rmIdx hb1, coordOf_rmIdx hb2]
  · intro q hq
    obtain ⟨n, hn, rfl⟩ := List.mem_map.mp hq
    rw [List.mem_range] at hn
    have hnN : n < s.height * s.width := by omega
    have hr := rmIdx_coordOf s.width n hw0
    refine ⟨coordOf_inBounds hnN, ?_, ?_⟩
    · intro he
      rw [he] at hr
      omega
    · intro he
      rw [he] at hr
      omega
  · intro q hq
    obtain ⟨j0, hj0, rfl⟩ := List.mem_map.mp hq
    obtain ⟨j, hj, rfl⟩ := List.mem_map.mp hj0
    rw [List.mem_range] at hj
    have hnN : rmIdx s.width p1 + 1 + j < s.height * s.width := by omega
    have hr := rmIdx_coordOf s.width (rmIdx s.width p1 + 1 + j) hw0
    refine ⟨coordOf_inBounds hnN, ?_⟩
    intro he
    rw [he] at hr
    omega
  · intro q hq
    obtain ⟨j0, hj0, rfl⟩ := List.mem_map.mp hq
    obtain ⟨j, hj, rfl⟩ := List.mem_map.mp hj0
    rw [List.mem_range] at hj
    have hnN : rmIdx s.width p2 + 1 + j < s.height * s.width := by omega
    have hr := rmIdx_coordOf s.width (rmIdx s.width p2 + 1 + j) hw0
    refine ⟨coordOf_inBounds hnN, ?_⟩
    intro he
    rw [he] at hr
    omega

theorem rmIdx_lt_of_lex {s : GameState} {p1 p2 : Int × Int}
    (hb1 : inBounds s p1.1 p1.2 = true) (hb2 : inBounds s p2.1 p2.2 = true)
    (h : p1.2 < p2.2 ∨ (p1.2 = p2.2 ∧ p1.1 < p2.1)) :
    rmIdx s.width p1 < rmIdx s.width p2 := by
  have h1 := inBounds_iff.mp hb1
  have h2 := inBounds_iff.mp hb2
  unfold rmIdx
  rcases h with h | ⟨he, hx⟩
  · have hy : p1.2.toNat + 1 ≤ p2.2.toNat := by omega
    have hx1 : p1.1.toNat < s.width := by omega
    calc p1.2.toNat * s.width + p1.1.toNat
        < (p1.2.toNat + 1) * s.width := by rw [Nat.succ_mul]; omega
      _ ≤ p2.2.toNat * s.width := Nat.mul_le_mul_right _ hy
      _ ≤ p2.2.toNat * s.width + p2.1.toNat := Nat.le_add_right _ _
  · have hyy : p1.2.toNat = p2.2.toNat := by omega
    rw [hyy]
    exact Nat.add_lt_add_left (by omega) _

theorem foldB_append (L1 L2 : List (Int × Int)) (sm : GameState × ItemGrid) :
    foldB (L1 ++ L2) sm = foldB L2 (foldB L1 sm) :=
  List.foldl_append _ _ L1 L2

theorem beltSig_extract {s' s : GameState} {x y : Int} {b : Building}
    (hsig : beltSig s' x y = beltSig s x y)
    (hbl : (tileAt s x y).building = some b) :
    ∃ bb, (tileAt s' x y).building = some bb ∧ bb.btype = b.btype ∧ bb.dir = b.dir := by
  unfold beltSig at hsig
  rw [hbl, Option.map_some'] at hsig
  rw [Option.map_eq_some'] at hsig
  obtain ⟨bb, h1, h2⟩ := hsig
  exact ⟨bb, h1, congrArg Prod.fst h2, congrArg Prod.snd h2⟩

theorem beltSig_extract_none {s' s : GameState} {x y : Int}
    (hsig : beltSig s' x y = beltSig s x y)
    (hbl : (tileAt s x y).building = none) :
    (tileAt s' x y).building = none := by
  unfold beltSig at hsig
  rw [hbl, Option.map_none'] at hsig
  exact Option.map_eq_none'.mp hsig

theorem pair_ne_toNat {s : GameState} {p q : Int × Int}
    (h1 : inBounds s p.1 p.2 = true) (h2 : inBounds s q.1 q.2 = true)
    (hne : p ≠ q) :
    p.1.toNat ≠ q.1.toNat ∨ p.2.toNat ≠ q.2.toNat := by
  apply inBounds_ne_toNat h1 h2
  intro hc
  exact hne (Prod.ext hc.1 hc.2)

theorem stepInDir_ne_self (x y : Int) (d : Direction) :
    ¬ ((stepInDir x y d).1 = x ∧ (stepInDir x y d).2 = y) := by
  cases d <;> simp [stepInDir]

/-- **C2.**  Belt transport: an item on a belt whose destination tile has no
building or a belt moves exactly when the destination cell of the moved grid
is empty (last conjunct, the single-tile rule); and when exactly two belts
feed the same empty destination tile in one tick, the item on the tile
scanned earlier in row-major order advances onto the destination while the
other item remains exactly where it was — nothing is lost or duplicated. -/
theorem belt_jam_first_mover (s : GameState) (x1 y1 x2 y2 dx dy : Int)
    (i1 i2 : ItemType) (b1 b2 : Building)
    (hw : Wf s)
    (hb1 : inBounds s x1 y1 = true) (hb2 : inBounds s x2 y2 = true)
    (hit1 : itemAt s x1 y1 = some i1) (hit2 : itemAt s x2 y2 = some i2)
    (hbl1 : (tileAt s x1 y1).building = some b1) (hbelt1 : b1.btype = .belt)
    (hbl2 : (tileAt s x2 y2).building = some b2) (hbelt2 : b2.btype = .belt)
    (hd1 : stepInDir x1 y1 b1.dir = (dx, dy))
    (hd2 : stepInDir x2 y2 b2.dir = (dx, dy))
    (horder : y1 < y2 ∨ (y1 = y2 ∧ x1 < x2))
    (hdinb : inBounds s dx dy = true)
    (hdestb : (tileAt s dx dy).building = none ∨
      ∃ db, (tileAt s dx dy).building = some db ∧ db.btype = .belt)
    (hdempty : itemAt s dx dy = none)
    (hnf : ∀ p : Int × Int, inBounds s p.1 p.2 = true →
      p ≠ (x1, y1) → p ≠ (x2, y2) →
      ∀ i bb, itemAt s p.1 p.2 = some i → (tileAt s p.1 p.2).building = some bb →
        bb.btype = .belt → ¬ stepInDir p.1 p.2 bb.dir = (dx, dy)) :
    gridGet (phaseB s).2 dx dy = some i1 ∧
    gridGet (phaseB s).2 x2 y2 = some i2 ∧
    (∀ (t : GameState) (m : ItemGrid) (x y : Int) (it : ItemType) (b : Building),
      itemAt t x y = some it → (tileAt t x y).building = some b → b.btype = .belt →
      inBounds t (stepInDir x y b.dir).1 (stepInDir x y b.dir).2 = true →
      ((tileAt t (stepInDir x y b.dir).1 (stepInDir x y b.dir).2).building = none ∨
        ∃ db, (tileAt t (stepInDir x y b.dir).1 (stepInDir x y b.dir).2).building
            = some db ∧ db.btype = .belt) →
      (gridGet m (stepInDir x y b.dir).1 (stepInDir x y b.dir).2 = none →
        beltTile t m x y = (t, gridSet (gridSet m (stepInDir x y b.dir).1
          (stepInDir x y b.dir).2 (some it)) x y none)) ∧
      (¬ gridGet m (stepInDir x y b.dir).1 (stepInDir x y b.dir).2 = none →
        beltTile t m x y = (t, m))) := by
  have hp12 : ((x1, y1) : Int × Int) ≠ (x2, y2) := by
    intro h
    rw [Prod.mk.injEq] at h
    omega
  have hp21 : ((x2, y2) : Int × Int) ≠ (x1, y1) := fun h => hp12 h.symm
  have hdp1 : ¬(dx = x1 ∧ dy = y1) := by
    have h := stepInDir_ne_self x1 y1 b1.dir
    rw [hd1] at h
    exact h
  have hdp2 : ¬(dx = x2 ∧ dy = y2) := by
    have h := stepInDir_ne_self x2 y2 b2.dir
    rw [hd2] at h
    exact h
  have hlt : rmIdx s.width (x1, y1) < rmIdx s.width (x2, y2) :=
    @rmIdx_lt_of_lex s (x1, y1) (x2, y2) hb1 hb2 horder
  obtain ⟨A, B, C, hsplit, hA, hB, hC⟩ :=
    @coords_split_two s (x1, y1) (x2, y2) hb1 hb2 hlt
  -- facts after the chunk before the first feeder
  have hwA : Wf (foldB A (s, s.items)).1 := foldB_wf A (s, s.items) hw
  have hcoreA : SameCore s (foldB A (s, s.items)).1 := foldB_core A (s, s.items)
  have hitemsA : (foldB A (s, s.items)).1.items = s.items := foldB_items A (s, s.items)
  have hdimsA : GridDims (foldB A (s, s.items)).2 s.width s.height :=
    foldB_dims A (s, s.items) hw hw.2
  have hdA : gridGet (foldB A (s, s.items)).2 dx dy = none := by
    refine foldB_preserve_none A (s, s.items) dx dy hw hw.2 hdempty hdinb
      (fun q hq => (hA q hq).1) ?_
    intro q hq i bb hi hbb hbt
    exact hnf q (hA q hq).1 (hA q hq).2.1 (hA q hq).2.2 i bb hi hbb hbt
  have hp1A : gridGet (foldB A (s, s.items)).2 x1 y1 = some i1 := by
    refine foldB_preserve_some A (s, s.items) x1 y1 i1 hw hw.2 hit1
      (fun q hq => (hA q hq).1) ?_
    intro q hq
    exact Or.inl (pair_ne_toNat (hA q hq).1 hb1 (hA q hq).2.1)
  have hp2A : gridGet (foldB A (s, s.items)).2 x2 y2 = some i2 := by
    refine foldB_preserve_some A (s, s.items) x2 y2 i2 hw hw.2 hit2
      (fun q hq => (hA q hq).1) ?_
    intro q hq
    exact Or.inl (pair_ne_toNat (hA q hq).1 hb2 (hA q hq).2.2)
  -- the first feeder moves its item onto the destination
  obtain ⟨bb1, hbb1, hty1, hdir1⟩ :=
    beltSig_extract (foldB_sig A (s, s.items) hw x1 y1) hbl1
  have hd1b : stepInDir x1 y1 bb1.dir = (dx, dy) := by
    rw [hdir1]
    exact hd1
  have hitA1 : itemAt (foldB A (s, s.items)).1 x1 y1 = some i1 := by
    unfold itemAt
    rw [hitemsA]
    exact hit1
  have hdinbA : inBounds (foldB A (s, s.items)).1 dx dy = true := by
    rw [inBounds_congr dx dy hcoreA.1 hcoreA.2.1]
    exact hdinb
  have hdestbA : (tileAt (foldB A (s, s.items)).1 dx dy).building = none ∨
      ∃ db, (tileAt (foldB A (s, s.items)).1 dx dy).building = some db ∧
        db.btype = .belt := by
    have hsigd := foldB_sig A (s, s.items) hw dx dy
    rcases hdestb with h | ⟨db, hdb, hdbt⟩
    · exact Or.inl (beltSig_extract_none hsigd h)
    · obtain ⟨db2, hh1, hh2, _⟩ := beltSig_extract hsigd hdb
      exact Or.inr ⟨db2, hh1, hh2.trans hdbt⟩
  have hmove1 : beltTile (foldB A (s, s.items)).1 (foldB A (s, s.items)).2 x1 y1
      = ((foldB A (s, s.items)).1,
         gridSet (gridSet (foldB A (s, s.items)).2 dx dy (some i1)) x1 y1 none) := by
    have h := (beltTile_move_dest (foldB A (s, s.items)).1 (foldB A (s, s.items)).2
      x1 y1 i1 bb1 hitA1 hbb1 (hty1.trans hbelt1)
      (by rw [hd1b]; exact hdinbA) (by rw [hd1b]; exact hdestbA)).1
      (by rw [hd1b]; exact hdA)
    rw [hd1b] at h
    exact h
  -- facts about the post-move pair
  have hne_d_p1 : dx.toNat ≠ x1.toNat ∨ dy.toNat ≠ y1.toNat := by
    refine inBounds_ne_toNat hdinb hb1 ?_
    exact hdp1
  have hne_p2_p1 : x2.toNat ≠ x1.toNat ∨ y2.toNat ≠ y1.toNat :=
    pair_ne_toNat hb2 hb1 hp21
  have hne_p2_d : x2.toNat ≠ dx.toNat ∨ y2.toNat ≠ dy.toNat := by
    refine inBounds_ne_toNat hb2 hdinb ?_
    intro h
    exact hdp2 ⟨h.1.symm, h.2.symm⟩
  have hd1v : gridGet (gridSet (gridSet (foldB A (s, s.items)).2 dx dy (some i1))
      x1 y1 none) dx dy = some i1 := by
    rw [gridGet_gridSet_ne _ hne_d_p1]
    exact gridGet_gridSet_self _ hdimsA
      (toNat_lt_of_inBounds_x hdinb) (toNat_lt_of_inBounds_y hdinb)
  have hp2v : gridGet (gridSet (gridSet (foldB A (s, s.items)).2 dx dy (some i1))
      x1 y1 none) x2 y2 = some i2 := by
    rw [gridGet_gridSet_ne _ hne_p2_p1, gridGet_gridSet_ne _ hne_p2_d]
    exact hp2A
  have hdims1 : GridDims (gridSet (gridSet (foldB A (s, s.items)).2 dx dy (some i1))
      x1 y1 none) (foldB A (s, s.items)).1.width (foldB A (s, s.items)).1.height := by
    rw [hcoreA.1, hcoreA.2.1]
    exact (hdimsA.setCell _ _ _).setCell _ _ _
  -- facts after the middle chunk
  have hsm1 : ∀ z : ItemGrid,
      z = gridSet (gridSet (foldB A (s, s.items)).2 dx dy (some i1)) x1 y1 none →
      gridGet (foldB B ((foldB A (s, s.items)).1, z)).2 dx dy = some i1 ∧
      gridGet (foldB B ((foldB A (s, s.items)).1, z)).2 x2 y2 = some i2 := by
    intro z hz
    subst hz
    constructor
    · refine foldB_preserve_some B _ dx dy i1 hwA hdims1 hd1v ?_ ?_
      · intro q hq
        rw [inBounds_congr q.1 q.2 hcoreA.1 hcoreA.2.1]
        exact (hB q hq).1
      · intro q hq
        by_cases hqd : q = (dx, dy)
        · subst hqd
          refine Or.inr ?_
          show itemAt _ dx dy = none
          unfold itemAt
          rw [hitemsA]
          exact hdempty
        · exact Or.inl (pair_ne_toNat (hB q hq).1 hdinb hqd)
    · refine foldB_preserve_some B _ x2 y2 i2 hwA hdims1 hp2v ?_ ?_
      · intro q hq
        rw [inBounds_congr q.1 q.2 hcoreA.1 hcoreA.2.1]
        exact (hB q hq).1
      · intro q hq
        exact Or.inl (pair_ne_toNat (hB q hq).1 hb2 (hB q hq).2)
  have hmainB := hsm1 _ rfl
  -- the second feeder is blocked and everything survives the final chunk
  have hwB : Wf (foldB B ((foldB A (s, s.items)).1,
      gridSet (gridSet (foldB A (s, s.items)).2 dx dy (some i1)) x1 y1 none)).1 :=
    foldB_wf B ((foldB A (s, s.items)).1, gridSet (gridSet (foldB A (s, s.items)).2 dx dy (some i1)) x1 y1 none) hwA
  have hcoreB : SameCore s (foldB B ((foldB A (s, s.items)).1,
      gridSet (gridSet (foldB A (s, s.items)).2 dx dy (some i1)) x1 y1 none)).1 :=
    sameCore_trans hcoreA (foldB_core B ((foldB A (s, s.items)).1, gridSet (gridSet (foldB A (s, s.items)).2 dx dy (some i1)) x1 y1 none))
  have hitemsB : (foldB B ((foldB A (s, s.items)).1,
      gridSet (gridSet (foldB A (s, s.items)).2 dx dy (some i1)) x1 y1 none)).1.items
      = s.items := by
    rw [foldB_items B _]
    exact hitemsA
  have hsigB : ∀ a c : Int, beltSig (foldB B ((foldB A (s, s.items)).1,
      gridSet (gridSet (foldB A (s, s.items)).2 dx dy (some i1)) x1 y1 none)).1 a c
      = beltSig s a c := by
    intro a c
    rw [foldB_sig B ((foldB A (s, s.items)).1, gridSet (gridSet (foldB A (s, s.items)).2 dx dy (some i1)) x1 y1 none) hwA a c]
    exact foldB_sig A (s, s.items) hw a c
  obtain ⟨bb2, hbb2, hty2, hdir2⟩ := beltSig_extract (hsigB x2 y2) hbl2
  have hd2b : stepInDir x2 y2 bb2.dir = (dx, dy) := by
    rw [hdir2]
    exact hd2
  have hitB2 : itemAt (foldB B ((foldB A (s, s.items)).1,
      gridSet (gridSet (foldB A (s, s.items)).2 dx dy (some i1)) x1 y1 none)).1 x2 y2
      = some i2 := by
    unfold itemAt
    rw [hitemsB]
    exact hit2
  have hdinbB : inBounds (foldB B ((foldB A (s, s.items)).1,
      gridSet (gridSet (foldB A (s, s.items)).2 dx dy (some i1)) x1 y1 none)).1 dx dy
      = true := by
    rw [inBounds_congr dx dy hcoreB.1 hcoreB.2.1]
    exact hdinb
  have hdestbB : (tileAt (foldB B ((foldB A (s, s.items)).1,
      gridSet (gridSet (foldB A (s, s.items)).2 dx dy (some i1)) x1 y1 none)).1
        dx dy).building = none ∨
      ∃ db, (tileAt (foldB B ((foldB A (s, s.items)).1,
        gridSet (gridSet (foldB A (s, s.items)).2 dx dy (some i1)) x1 y1 none)).1
          dx dy).building = some db ∧ db.btype = .belt := by
    rcases hdestb with h | ⟨db, hdb, hdbt⟩
    · exact Or.inl (beltSig_extract_none (hsigB dx dy) h)
    · obtain ⟨db2, hh1, hh2, _⟩ := beltSig_extract (hsigB dx dy) hdb
      exact Or.inr ⟨db2, hh1, hh2.trans hdbt⟩
  have hstay : beltTile (foldB B ((foldB A (s, s.items)).1,
      gridSet (gridSet (foldB A (s, s.items)).2 dx dy (some i1)) x1 y1 none)).1
      (foldB B ((foldB A (s, s.items)).1,
        gridSet (gridSet (foldB A (s, s.items)).2 dx dy (some i1)) x1 y1 none)).2
      x2 y2
      = ((foldB B ((foldB A (s, s.items)).1,
          gridSet (gridSet (foldB A (s, s.items)).2 dx dy (some i1)) x1 y1 none)).1,
         (foldB B ((foldB A (s, s.items)).1,
          gridSet (gridSet (foldB A (s, s.items)).2 dx dy (some i1)) x1 y1 none)).2) := by
    have h := (beltTile_move_dest _ _ x2 y2 i2 bb2 hitB2 hbb2 (hty2.trans hbelt2)
      (by rw [hd2b]; exact hdinbB) (by rw [hd2b]; exact hdestbB)).2
      (by rw [hd2b, hmainB.1]; simp)
    exact h
  have hdimsB : GridDims (foldB B ((foldB A (s, s.items)).1,
      gridSet (gridSet (foldB A (s, s.items)).2 dx dy (some i1)) x1 y1 none)).2
      s.width s.height := by
    have h := foldB_dims B ((foldB A (s, s.items)).1, gridSet (gridSet (foldB A (s, s.items)).2 dx dy (some i1)) x1 y1 none) hwA hdims1
    rwa [hcoreA.1, hcoreA.2.1] at h
  -- chunk after the second feeder
  have hfinal : ∀ smB : GameState × ItemGrid,
      Wf smB.1 → GridDims smB.2 s.width s.height → SameCore s smB.1 →
      smB.1.items = s.items →
      gridGet smB.2 dx dy = some i1 → gridGet smB.2 x2 y2 = some i2 →
      gridGet (foldB C smB).2 dx dy = some i1 ∧
      gridGet (foldB C smB).2 x2 y2 = some i2 := by
    intro smB hw2 hm2 hcore2 hitems2 hv1 hv2
    have hm2b : GridDims smB.2 smB.1.width smB.1.height := by
      rw [hcore2.1, hcore2.2.1]
      exact hm2
    constructor
    · refine foldB_preserve_some C smB dx dy i1 hw2 hm2b hv1 ?_ ?_
      · intro q hq
        rw [inBounds_congr q.1 q.2 hcore2.1 hcore2.2.1]
        exact (hC q hq).1
      · intro q hq
        by_cases hqd : q = (dx, dy)
        · subst hqd
          refine Or.inr ?_
          show itemAt _ dx dy = none
          unfold itemAt
          rw [hitems2]
          exact hdempty
        · exact Or.inl (pair_ne_toNat (hC q hq).1 hdinb hqd)
    · refine foldB_preserve_some C smB x2 y2 i2 hw2 hm2b hv2 ?_ ?_
      · intro q hq
        rw [inBounds_congr q.1 q.2 hcore2.1 hcore2.2.1]
        exact (hC q hq).1
      · intro q hq
        exact Or.inl (pair_ne_toNat (hC q hq).1 hb2 (hC q hq).2)
  have hchain : phaseB s = foldB C (beltTile
      (foldB B ((foldB A (s, s.items)).1,
        gridSet (gridSet (foldB A (s, s.items)).2 dx dy (some i1)) x1 y1 none)).1
      (foldB B ((foldB A (s, s.items)).1,
        gridSet (gridSet (foldB A (s, s.items)).2 dx dy (some i1)) x1 y1 none)).2
      x2 y2) := by
    show foldB (coords s.width s.height) (s, s.items) = _
    rw [hsplit, foldB_append, foldB_cons]
    show foldB (B ++ (x2, y2) :: C) (beltTile (foldB A (s, s.items)).1
      (foldB A (s, s.items)).2 x1 y1) = _
    rw [hmove1, foldB_append, foldB_cons]
  have hres := hfinal (foldB B ((foldB A (s, s.items)).1, gridSet (gridSet (foldB A (s, s.items)).2 dx dy (some i1)) x1 y1 none)) hwB hdimsB hcoreB hitemsB hmainB.1 hmainB.2
  refine ⟨?_, ?_, fun t m x y it b a1 a2 a3 a4 a5 =>
    beltTile_move_dest t m x y it b a1 a2 a3 a4 a5⟩
  · rw [hchain, hstay]
    exact hres.1
  · rw [hchain, hstay]
    exact hres.2

/-- Witness: the C6 resolution lemma applied to `beltChestWorld`. -/
theorem beltTile_nonbelt_resolution_witness :
    (beltTile beltChestWorld beltChestWorld.items 0 0).1.inventory.get .ironOre = 1 ∧
    gridGet (beltTile beltChestWorld beltChestWorld.items 0 0).2 0 0 = none := by
  have h := (beltTile_nonbelt_resolution beltChestWorld beltChestWorld.items 0 0
      .ironOre
      { btype := .belt, dir := .right, progress := 0, buffer := createBuffer }
      { btype := .chest, dir := .up, progress := 0, buffer := createBuffer }
      (by decide) (by decide) rfl (by decide) (by decide)).1 (Or.inl rfl)
  rw [h]
  exact ⟨by decide, by decide⟩

/-- Witness: C2 applied to `jamWorld` — the earlier-scanned item wins the
contested destination and the other stays put. -/
theorem belt_jam_first_mover_witness :
    gridGet (phaseB jamWorld).2 1 0 = some ItemType.ironOre ∧
    gridGet (phaseB jamWorld).2 1 1 = some ItemType.copperOre := by
  have h := belt_jam_first_mover jamWorld 0 0 1 1 1 0 .ironOre .copperOre
    { btype := .belt, dir := .right, progress := 0, buffer := createBuffer }
    { btype := .belt, dir := .up, progress := 0, buffer := createBuffer }
    (by decide) (by decide) (by decide) (by decide) (by decide)
    (by decide) (by decide) (by decide) (by decide) (by decide) (by decide)
    (by decide) (by decide) (by decide) (by decide) ?_
  · exact ⟨h.1, h.2.1⟩
  · intro p hp h1 h2 i bb hi hbb hbt
    rw [inBounds_iff] at hp
    have hwid : jamWorld.width = 2 := rfl
    have hht : jamWorld.height = 2 := rfl
    rw [hwid, hht] at hp
    have hx : p.1 = 0 ∨ p.1 = 1 := by omega
    have hy : p.2 = 0 ∨ p.2 = 1 := by omega
    have hpair : p = (p.1, p.2) := rfl
    rcases hx with hx | hx <;> rcases hy with hy | hy
    · exact absurd (by rw [hpair, hx, hy]) h1
    · rw [hpair, hx, hy] at hbb
      have : (tileAt jamWorld 0 1).building = none := by decide
      rw [this] at hbb
      exact Option.noConfusion hbb
    · rw [hpair, hx, hy] at hi
      have : itemAt jamWorld 1 0 = none := by decide
      rw [this] at hi
      exact Option.noConfusion hi
    · exact absurd (by rw [hpair, hx, hy]) h2

theorem measureB_pair (s : GameState) : measureB (s, s.items) = measureM s := by
  unfold measureB measureM totalCount
  push_cast
  ring

theorem map_sum_set {α : Type} (f : α → Nat) (d : α) :
    ∀ (l : List α) (i : Nat) (a : α), i < l.length →
    ((l.set i a).map f).sum + f (l.getD i d) = (l.map f).sum + f a := by
  intro l
  induction l with
  | nil =>
    intro i a h
    exact absurd h (by simp)
  | cons x xs ih =>
    intro i a h
    cases i with
    | zero =>
      simp only [List.set_cons_zero, List.map_cons, List.sum_cons, List.getD_cons_zero]
      omega
    | succ n =>
      have hlen : n < xs.length := by
        simpa using h
      have := ih n a hlen
      simp only [List.set_cons_succ, List.map_cons, List.sum_cons, List.getD_cons_succ]
      omega

theorem gridSum_setCell {α : Type} (f : α → Nat) (d : α) (g : List (List α))
    (x y : Nat) (v : α) (hrow : y < g.length) (hcol : x < (g.getD y []).length) :
    ((setCell g x y v).map fun r => (r.map f).sum).sum + f (cell g x y d)
      = (g.map fun r => (r.map f).sum).sum + f v := by
  have h1 := map_sum_set (fun r => (r.map f).sum) [] g y ((g.getD y []).set x v) hrow
  have h2 := map_sum_set f d (g.getD y []) x v hcol
  simp only at h1
  rw [show cell g x y d = (g.getD y []).getD x d from rfl]
  unfold setCell
  omega

theorem gridItemSum_gridSet {g : ItemGrid} {w h : Nat} (hg : GridDims g w h)
    {x y : Int} (v : Option ItemType) (hx : x.toNat < w) (hy : y.toNat < h) :
    gridItemSum (gridSet g x y v) + itemCount (gridGet g x y)
      = gridItemSum g + itemCount v := by
  unfold gridItemSum gridSet gridGet
  exact gridSum_setCell itemCount none g x.toNat y.toNat v
    (by rw [hg.1]; exact hy) (by rw [row_length_of_dims hg hy]; exact hx)

theorem gridBufSum_setTile {s : GameState} (hw : Wf s) {x y : Int} (t : Tile)
    (hb : inBounds s x y = true) :
    gridBufSum (setTile s x y t).tiles + tileBufSum (tileAt s x y)
      = gridBufSum s.tiles + tileBufSum t := by
  unfold gridBufSum tileAt setTile
  exact gridSum_setCell tileBufSum defaultTile s.tiles x.toNat y.toNat t
    (by rw [hw.1.1]; exact toNat_lt_of_inBounds_y hb)
    (by rw [row_length_of_dims hw.1 (toNat_lt_of_inBounds_y hb)]
        exact toNat_lt_of_inBounds_x hb)

theorem Buf.total_add (b : Buf) (it : ItemType) (n : Nat) :
    (b.add it n).total = b.total + n := by
  cases it <;> simp [Buf.add, Buf.total] <;> omega

theorem Buf.total_sub (b : Buf) (it : ItemType) (n : Nat) (h : n ≤ b.get it) :
    (b.sub it n).total + n = b.total := by
  cases it <;> simp [Buf.sub, Buf.total, Buf.get] at h ⊢ <;> omega

/-- `tileBufSum` only reads the building slot. -/
theorem tileBufSum_congr {t t' : Tile} (h : t'.building = t.building) :
    tileBufSum t' = tileBufSum t := by
  unfold tileBufSum
  rw [h]

/-- Overwriting a ground cell shifts the measure by the item-count delta. -/
theorem measureM_setItem {s : GameState} (hw : Wf s) {x y : Int}
    (hb : inBounds s x y = true) (v : Option ItemType) :
    measureM (setItem s x y v) + (itemCount (itemAt s x y) : Int)
      = measureM s + itemCount v := by
  have h := gridItemSum_gridSet hw.2 v (toNat_lt_of_inBounds_x hb)
    (toNat_lt_of_inBounds_y hb)
  unfold measureM totalCount setItem itemAt
  simp only
  omega

/-- Overwriting a tile without changing its buffered total preserves the
measure. -/
theorem measureM_setTile {s : GameState} (hw : Wf s) {x y : Int} {t : Tile}
    (hb : inBounds s x y = true)
    (hbuf : tileBufSum t = tileBufSum (tileAt s x y)) :
    measureM (setTile s x y t) = measureM s := by
  have h := gridBufSum_setTile hw t hb
  unfold measureM totalCount
  simp only [setTile]
  unfold setTile at h
  simp only at h ⊢
  omega

/-- Swapping a building for one with the same buffered total preserves the
measure. -/
theorem measureM_setBuilding {s : GameState} (hw : Wf s) {x y : Int}
    {b : Building} (nb : Building) (hb : inBounds s x y = true)
    (hbl : (tileAt s x y).building = some b)
    (hbuf : nb.buffer.total = b.buffer.total) :
    measureM (setBuilding s x y nb) = measureM s := by
  refine measureM_setTile hw hb ?_
  unfold tileBufSum
  simp only [hbl]
  exact hbuf

theorem measureM_bumpIronMined (s : GameState) :
    measureM (bumpIronMined s) = measureM s - 1 := by
  simp only [measureM, totalCount, bumpIronMined]
  push_cast
  ring

theorem measureM_bumpCopperMined (s : GameState) :
    measureM (bumpCopperMined s) = measureM s - 1 := by
  simp only [measureM, totalCount, bumpCopperMined]
  push_cast
  ring

theorem measureM_bumpIronPlates (s : GameState) :
    measureM (bumpIronPlates s) = measureM s := rfl

theorem measureM_bumpCopperPlates (s : GameState) :
    measureM (bumpCopperPlates s) = measureM s := rfl

theorem measureM_bumpGearsCrafted (s : GameState) :
    measureM (bumpGearsCrafted s) = measureM s + 1 := by
  simp only [measureM, totalCount, bumpGearsCrafted]
  push_cast
  ring

theorem measureM_bumpWiresCrafted (s : GameState) :
    measureM (bumpWiresCrafted s) = measureM s := rfl

/-- Crediting one item to the inventory raises the measure by one. -/
theorem measureM_invAdd (s : GameState) (it : ItemType) :
    measureM { s with inventory := s.inventory.add it 1 } = measureM s + 1 := by
  have h := Buf.total_add s.inventory it 1
  simp only [measureM, totalCount]
  omega

theorem Wf.bumpIronMined {s : GameState} (hw : Wf s) : Wf (GPTorio.bumpIronMined s) := hw
theorem Wf.bumpCopperMined {s : GameState} (hw : Wf s) : Wf (GPTorio.bumpCopperMined s) := hw
theorem Wf.bumpIronPlates {s : GameState} (hw : Wf s) : Wf (GPTorio.bumpIronPlates s) := hw
theorem Wf.bumpCopperPlates {s : GameState} (hw : Wf s) : Wf (GPTorio.bumpCopperPlates s) := hw
theorem Wf.bumpGearsCrafted {s : GameState} (hw : Wf s) : Wf (GPTorio.bumpGearsCrafted s) := hw
theorem Wf.bumpWiresCrafted {s : GameState} (hw : Wf s) : Wf (GPTorio.bumpWiresCrafted s) := hw

theorem Wf.withInventory {s : GameState} (hw : Wf s) (v : Buf) :
    Wf { s with inventory := v } := hw

/-- Any hit of the neighbor scan is in bounds and carries a matching ground
item. -/
theorem findNeighborAux_spec {s : GameState} {x y : Int} {p : ItemType → Bool}
    {c : Int × Int} :
    ∀ {ds : List Direction}, findNeighborAux s x y p ds = some c →
      inBounds s c.1 c.2 = true ∧ ∃ it, itemAt s c.1 c.2 = some it ∧ p it = true := by
  intro ds
  induction ds with
  | nil =>
    intro h
    exact absurd h (by simp [findNeighborAux])
  | cons d ds ih =>
    intro h
    rw [findNeighborAux] at h
    by_cases hbnd : inBounds s (stepInDir x y d).1 (stepInDir x y d).2 = true
    · rw [if_pos hbnd] at h
      rcases hit : itemAt s (stepInDir x y d).1 (stepInDir x y d).2 with _ | it
      · rw [hit] at h
        exact ih h
      · rw [hit] at h
        simp only at h
        by_cases hp : p it = true
        · rw [if_pos hp] at h
          cases h
          exact ⟨hbnd, it, hit, hp⟩
        · rw [if_neg hp] at h
          exact ih h
    · rw [if_neg hbnd] at h
      exact ih h

theorem mineTick_wf {s : GameState} (x y : Int) (b : Building) (hw : Wf s) :
    Wf (mineTick s x y b) := by
  simp only [mineTick]
  repeat' split
  all_goals
    repeat first
      | exact hw
      | apply Wf.bumpIronMined
      | apply Wf.bumpCopperMined
      | apply Wf.setTile
      | apply Wf.setItem
      | apply Wf.setBuilding

theorem furnaceTick_wf {s : GameState} (x y : Int) (b : Building) (hw : Wf s) :
    Wf (furnaceTick s x y b) := by
  simp only [furnaceTick]
  repeat' split
  all_goals
    repeat first
      | exact hw
      | apply Wf.bumpIronPlates
      | apply Wf.bumpCopperPlates
      | apply Wf.setTile
      | apply Wf.setItem
      | apply Wf.setBuilding

theorem assemblerTick_wf {s : GameState} (x y : Int) (b : Building) (hw : Wf s) :
    Wf (assemblerTick s x y b) := by
  simp only [assemblerTick]
  repeat' split
  all_goals
    repeat first
      | exact hw
      | apply Wf.bumpGearsCrafted
      | apply Wf.setTile
      | apply Wf.setItem
      | apply Wf.setBuilding

theorem wireMillTick_wf {s : GameState} (x y : Int) (b : Building) (hw : Wf s) :
    Wf (wireMillTick s x y b) := by
  simp only [wireMillTick]
  repeat' split
  all_goals
    repeat first
      | exact hw
      | apply Wf.bumpWiresCrafted
      | apply Wf.setTile
      | apply Wf.setItem
      | apply Wf.setBuilding

theorem hubTick_wf {s : GameState} (x y : Int) (hw : Wf s) :
    Wf (hubTick s x y) := by
  simp only [hubTick]
  repeat' split
  all_goals
    repeat first
      | exact hw
      | apply Wf.withInventory
      | apply Wf.setItem

theorem phaseATile_wf {s : GameState} (x y : Int) (hw : Wf s) :
    Wf (phaseATile s x y) := by
  simp only [phaseATile]
  repeat' split
  all_goals first
    | exact hw
    | exact mineTick_wf x y _ hw
    | exact furnaceTick_wf x y _ hw
    | exact assemblerTick_wf x y _ hw
    | exact wireMillTick_wf x y _ hw
    | exact hubTick_wf x y hw

theorem hubTick_measure {s : GameState} {x y : Int} (hw : Wf s) :
    measureM (hubTick s x y) = measureM s := by
  simp only [hubTick]
  rcases hf : findNeighborItemAny s x y with _ | c
  · rfl
  · obtain ⟨hbnd, it0, hit0, -⟩ := findNeighborAux_spec hf
    simp only
    rw [hit0]
    simp only
    have h1 := measureM_setItem hw hbnd none
    rw [hit0] at h1
    have h2 := measureM_invAdd (setItem s c.1 c.2 none) it0
    rw [show (setItem s c.1 c.2 none).inventory = s.inventory from rfl] at h2
    simp only [itemCount] at h1
    omega

theorem mineTick_measure {s : GameState} {x y : Int} {b : Building} (hw : Wf s)
    (hb : inBounds s x y = true) (hbl : (tileAt s x y).building = some b) :
    measureM (mineTick s x y b) = measureM s := by
  have hm1 : measureM (setBuilding s x y { b with progress := b.progress + 1 })
      = measureM s := measureM_setBuilding hw _ hb hbl rfl
  simp only [mineTick]
  split
  · rfl
  · split
    · rfl
    · split
      · split
        · rename_i hprog hcan
          rw [tileAt_setBuilding_self _ hw hb]
          simp only
          generalize (if (tileAt s x y).terrain = TerrainType.iron then ItemType.ironOre
              else ItemType.copperOre) = oi
          have hw1 : Wf (setBuilding s x y { b with progress := b.progress + 1 }) :=
            hw.setBuilding x y _
          have hw2 : Wf (setItem (setBuilding s x y { b with progress := b.progress + 1 })
              (stepInDir x y b.dir).1 (stepInDir x y b.dir).2 (some oi)) :=
            hw1.setItem _ _ _
          have hw3 : Wf (setBuilding (setItem
              (setBuilding s x y { b with progress := b.progress + 1 })
              (stepInDir x y b.dir).1 (stepInDir x y b.dir).2 (some oi))
              x y { b with progress := 0 }) := hw2.setBuilding _ _ _
          have htS3 : tileAt (setBuilding (setItem
                (setBuilding s x y { b with progress := b.progress + 1 })
                (stepInDir x y b.dir).1 (stepInDir x y b.dir).2 (some oi))
                x y { b with progress := 0 }) x y
              = { tileAt s x y with building := some { b with progress := 0 } } := by
            rw [tileAt_setBuilding_self _ hw2 hb, tileAt_setItem,
              tileAt_setBuilding_self _ hw hb]
          rw [htS3]
          simp only
          have hbl2 : (tileAt (setItem
              (setBuilding s x y { b with progress := b.progress + 1 })
              (stepInDir x y b.dir).1 (stepInDir x y b.dir).2 (some oi)) x y).building
              = some { b with progress := b.progress + 1 } := by
            rw [tileAt_setItem, tileAt_setBuilding_self _ hw hb]
          have hm3 : measureM (setBuilding (setItem
              (setBuilding s x y { b with progress := b.progress + 1 })
              (stepInDir x y b.dir).1 (stepInDir x y b.dir).2 (some oi))
              x y { b with progress := 0 })
              = measureM (setItem (setBuilding s x y { b with progress := b.progress + 1 })
                (stepInDir x y b.dir).1 (stepInDir x y b.dir).2 (some oi)) :=
            measureM_setBuilding hw2 _ hb hbl2 rfl
          have hm2 := measureM_setItem hw1 (canPlaceItem_iff.mp hcan).1 (some oi)
          rw [(canPlaceItem_iff.mp hcan).2.2] at hm2
          simp only [itemCount] at hm2
          have ht1 : tileBufSum { terrain := TerrainType.empty, resource := 0, building := some { b with progress := 0 } }
              = tileBufSum (tileAt (setBuilding (setItem
                (setBuilding s x y { b with progress := b.progress + 1 })
                (stepInDir x y b.dir).1 (stepInDir x y b.dir).2 (some oi))
                x y { b with progress := 0 }) x y) :=
            tileBufSum_congr (by rw [htS3])
          have ht2 : tileBufSum { terrain := (tileAt s x y).terrain, resource := (tileAt s x y).resource - 1, building := some { b with progress := 0 } }
              = tileBufSum (tileAt (setBuilding (setItem
                (setBuilding s x y { b with progress := b.progress + 1 })
                (stepInDir x y b.dir).1 (stepInDir x y b.dir).2 (some oi))
                x y { b with progress := 0 }) x y) :=
            tileBufSum_congr (by rw [htS3])
          split
          · rw [measureM_bumpIronMined]
            split
            · rw [measureM_setTile hw3 hb ht1]
              omega
            · rw [measureM_setTile hw3 hb ht2]
              omega
          · rw [measureM_bumpCopperMined]
            split
            · rw [measureM_setTile hw3 hb ht1]
              omega
            · rw [measureM_setTile hw3 hb ht2]
              omega
        · exact hm1
      · exact hm1

/-- General tile overwrite: the measure shifts by the buffered-total delta. -/
theorem measureM_setTile_delta {s : GameState} (hw : Wf s) {x y : Int} (t : Tile)
    (hb : inBounds s x y = true) :
    measureM (setTile s x y t) + (tileBufSum (tileAt s x y) : Int)
      = measureM s + tileBufSum t := by
  have h := gridBufSum_setTile hw t hb
  unfold measureM totalCount
  simp only [setTile]
  unfold setTile at h
  simp only at h ⊢
  omega

/-- General building overwrite: the measure shifts by the buffer-total delta. -/
theorem measureM_setBuilding_delta {s : GameState} (hw : Wf s) {x y : Int}
    {b : Building} (nb : Building) (hb : inBounds s x y = true)
    (hbl : (tileAt s x y).building = some b) :
    measureM (setBuilding s x y nb) + (b.buffer.total : Int)
      = measureM s + nb.buffer.total := by
  have h := measureM_setTile_delta hw { tileAt s x y with building := some nb } hb
  have h1 : tileBufSum { tileAt s x y with building := some nb } = nb.buffer.total := by
    simp [tileBufSum]
  have h2 : tileBufSum (tileAt s x y) = b.buffer.total := by
    simp [tileBufSum, hbl]
  rw [h1, h2] at h
  exact h

/-- The furnace's smeltable-ore selector only answers with a non-empty
buffer slot. -/
theorem oreOpt_get {bf : Buf} {oreType : ItemType}
    (hore : (if 0 < bf.ironOre then some ItemType.ironOre
        else if 0 < bf.copperOre then some ItemType.copperOre
        else none : Option ItemType) = some oreType) :
    1 ≤ bf.get oreType := by
  by_cases h1 : 0 < bf.ironOre
  · rw [if_pos h1] at hore
    cases hore
    exact h1
  · rw [if_neg h1] at hore
    by_cases h2 : 0 < bf.copperOre
    · rw [if_pos h2] at hore
      cases hore
      exact h2
    · rw [if_neg h2] at hore
      cases hore

/-- The smelt stage of the furnace branch (everything after ore selection)
preserves the measure: a produced plate on the ground is paid for by one ore
leaving the buffer. -/
theorem furnaceSmelt_measure {s1 : GameState} {x y : Int} {b1 : Building}
    {oreType : ItemType}
    (hw1 : Wf s1) (hb : inBounds s1 x y = true)
    (hbl : (tileAt s1 x y).building = some b1)
    (hget : 1 ≤ b1.buffer.get oreType) :
    measureM
      (if FURNACE_TICKS ≤ b1.progress + 1 then
         if canPlaceItem (setBuilding s1 x y { b1 with progress := b1.progress + 1 })
             (stepInDir x y b1.dir).1 (stepInDir x y b1.dir).2 = true then
           if (if oreType = ItemType.ironOre then ItemType.ironPlate else ItemType.copperPlate) = ItemType.ironPlate then
             bumpIronPlates (setBuilding (setItem (setBuilding s1 x y { b1 with progress := b1.progress + 1 }) (stepInDir x y b1.dir).1 (stepInDir x y b1.dir).2 (some (if oreType = ItemType.ironOre then ItemType.ironPlate else ItemType.copperPlate))) x y { b1 with buffer := b1.buffer.sub oreType 1, progress := 0 })
           else
             bumpCopperPlates (setBuilding (setItem (setBuilding s1 x y { b1 with progress := b1.progress + 1 }) (stepInDir x y b1.dir).1 (stepInDir x y b1.dir).2 (some (if oreType = ItemType.ironOre then ItemType.ironPlate else ItemType.copperPlate))) x y { b1 with buffer := b1.buffer.sub oreType 1, progress := 0 })
         else setBuilding s1 x y { b1 with progress := b1.progress + 1 }
       else setBuilding s1 x y { b1 with progress := b1.progress + 1 })
      = measureM s1 := by
  have hm1 : measureM (setBuilding s1 x y { b1 with progress := b1.progress + 1 })
      = measureM s1 := measureM_setBuilding hw1 _ hb hbl rfl
  split
  · split
    · rename_i hprog hcan
      generalize (if oreType = ItemType.ironOre then ItemType.ironPlate
          else ItemType.copperPlate) = pt
      have hw2 : Wf (setBuilding s1 x y { b1 with progress := b1.progress + 1 }) :=
        hw1.setBuilding x y _
      have hw3 : Wf (setItem (setBuilding s1 x y { b1 with progress := b1.progress + 1 })
          (stepInDir x y b1.dir).1 (stepInDir x y b1.dir).2 (some pt)) :=
        hw2.setItem _ _ _
      have hm2 := measureM_setItem hw2 (canPlaceItem_iff.mp hcan).1 (some pt)
      rw [(canPlaceItem_iff.mp hcan).2.2] at hm2
      simp only [itemCount] at hm2
      have hbl2 : (tileAt (setItem (setBuilding s1 x y { b1 with progress := b1.progress + 1 })
          (stepInDir x y b1.dir).1 (stepInDir x y b1.dir).2 (some pt)) x y).building
          = some { b1 with progress := b1.progress + 1 } := by
        rw [tileAt_setItem, tileAt_setBuilding_self _ hw1 hb]
      have hm4 := measureM_setBuilding_delta hw3
        { b1 with buffer := b1.buffer.sub oreType 1, progress := 0 } hb hbl2
      simp only at hm4
      have hsub := Buf.total_sub b1.buffer oreType 1 hget
      split
      · rw [measureM_bumpIronPlates]
        omega
      · rw [measureM_bumpCopperPlates]
        omega
    · exact hm1
  · exact hm1

theorem furnaceTick_measure {s : GameState} {x y : Int} {b : Building} (hw : Wf s)
    (hb : inBounds s x y = true) (hbl : (tileAt s x y).building = some b) :
    measureM (furnaceTick s x y b) = measureM s := by
  simp only [furnaceTick]
  by_cases hcond : b.buffer.ironOre = 0 ∧ b.buffer.copperOre = 0
  · rw [if_pos hcond]
    rcases hf : findNeighborItemByTypes s x y [ItemType.ironOre, ItemType.copperOre]
      with _ | c
    · simp only
      rcases hore : (if 0 < b.buffer.ironOre then some ItemType.ironOre
          else if 0 < b.buffer.copperOre then some ItemType.copperOre
          else none : Option ItemType) with _ | oreSel
      · rfl
      · exact furnaceSmelt_measure hw hb hbl (oreOpt_get hore)
    · simp only
      obtain ⟨hbnd, it0, hit0, -⟩ := findNeighborAux_spec hf
      simp only [hit0]
      have hwsi : Wf (setItem s c.1 c.2 none) := hw.setItem _ _ _
      have hw' : Wf (setBuilding (setItem s c.1 c.2 none) x y
          { b with buffer := b.buffer.add it0 1, progress := 0 }) :=
        hwsi.setBuilding _ _ _
      have hblSI : (tileAt (setItem s c.1 c.2 none) x y).building = some b := by
        rw [tileAt_setItem]
        exact hbl
      have hbl' : (tileAt (setBuilding (setItem s c.1 c.2 none) x y
          { b with buffer := b.buffer.add it0 1, progress := 0 }) x y).building
          = some { b with buffer := b.buffer.add it0 1, progress := 0 } := by
        rw [tileAt_setBuilding_self _ hwsi hb]
      have hmv := measureM_setItem hw hbnd none
      rw [hit0] at hmv
      simp only [itemCount] at hmv
      have hmb := measureM_setBuilding_delta hwsi
        { b with buffer := b.buffer.add it0 1, progress := 0 } hb hblSI
      simp only at hmb
      have hadd := Buf.total_add b.buffer it0 1
      have hs1 : measureM (setBuilding (setItem s c.1 c.2 none) x y
          { b with buffer := b.buffer.add it0 1, progress := 0 }) = measureM s := by
        omega
      rcases hore : (if 0 < (b.buffer.add it0 1).ironOre then some ItemType.ironOre
          else if 0 < (b.buffer.add it0 1).copperOre then some ItemType.copperOre
          else none : Option ItemType) with _ | oreSel
      · exact hs1
      · exact (furnaceSmelt_measure hw' hb hbl' (oreOpt_get hore)).trans hs1
  · rw [if_neg hcond]
    simp only
    rcases hore : (if 0 < b.buffer.ironOre then some ItemType.ironOre
        else if 0 < b.buffer.copperOre then some ItemType.copperOre
        else none : Option ItemType) with _ | oreSel
    · rfl
    · exact furnaceSmelt_measure hw hb hbl (oreOpt_get hore)

/-- The craft stage of the assembler branch (everything after plate pickup)
preserves the measure: a crafted gear on the ground plus the gear stat tick
are paid for by two plates leaving the buffer. -/
theorem assemblerCraft_measure {s1 : GameState} {x y : Int} {b1 : Building}
    (hw1 : Wf s1) (hb : inBounds s1 x y = true)
    (hbl : (tileAt s1 x y).building = some b1) :
    measureM
      (if 2 ≤ b1.buffer.ironPlate then
        if ASSEMBLER_TICKS ≤ b1.progress + 1 then
          if canPlaceItem (setBuilding s1 x y { b1 with progress := b1.progress + 1 })
              (stepInDir x y b1.dir).1 (stepInDir x y b1.dir).2 = true then
            bumpGearsCrafted (setBuilding (setItem (setBuilding s1 x y { b1 with progress := b1.progress + 1 }) (stepInDir x y b1.dir).1 (stepInDir x y b1.dir).2 (some ItemType.gear)) x y { b1 with buffer := b1.buffer.sub ItemType.ironPlate 2, progress := 0 })
          else setBuilding s1 x y { b1 with progress := b1.progress + 1 }
        else setBuilding s1 x y { b1 with progress := b1.progress + 1 }
      else s1)
      = measureM s1 := by
  have hm1 : measureM (setBuilding s1 x y { b1 with progress := b1.progress + 1 })
      = measureM s1 := measureM_setBuilding hw1 _ hb hbl rfl
  split
  · rename_i hplate
    split
    · split
      · rename_i hprog hcan
        have hw2 : Wf (setBuilding s1 x y { b1 with progress := b1.progress + 1 }) :=
          hw1.setBuilding x y _
        have hw3 : Wf (setItem (setBuilding s1 x y { b1 with progress := b1.progress + 1 })
            (stepInDir x y b1.dir).1 (stepInDir x y b1.dir).2 (some ItemType.gear)) :=
          hw2.setItem _ _ _
        have hm2 := measureM_setItem hw2 (canPlaceItem_iff.mp hcan).1 (some ItemType.gear)
        rw [(canPlaceItem_iff.mp hcan).2.2] at hm2
        simp only [itemCount] at hm2
        have hbl2 : (tileAt (setItem (setBuilding s1 x y { b1 with progress := b1.progress + 1 })
            (stepInDir x y b1.dir).1 (stepInDir x y b1.dir).2 (some ItemType.gear)) x y).building
            = some { b1 with progress := b1.progress + 1 } := by
          rw [tileAt_setItem, tileAt_setBuilding_self _ hw1 hb]
        have hm4 := measureM_setBuilding_delta hw3
          { b1 with buffer := b1.buffer.sub ItemType.ironPlate 2, progress := 0 } hb hbl2
        simp only at hm4
        have hsub : (b1.buffer.sub ItemType.ironPlate 2).total + 2 = b1.buffer.total :=
          Buf.total_sub b1.buffer ItemType.ironPlate 2 hplate
        rw [measureM_bumpGearsCrafted]
        omega
      · exact hm1
    · exact hm1
  · rfl

theorem assemblerTick_measure {s : GameState} {x y : Int} {b : Building} (hw : Wf s)
    (hb : inBounds s x y = true) (hbl : (tileAt s x y).building = some b) :
    measureM (assemblerTick s x y b) = measureM s := by
  simp only [assemblerTick]
  by_cases hcond : b.buffer.ironPlate < 2
  · rw [if_pos hcond]
    rcases hf : findNeighborItem s x y ItemType.ironPlate with _ | c
    · exact assemblerCraft_measure hw hb hbl
    · simp only
      obtain ⟨hbnd, it0, hit0, -⟩ := findNeighborAux_spec hf
      have hwsi : Wf (setItem s c.1 c.2 none) := hw.setItem _ _ _
      have hw' : Wf (setBuilding (setItem s c.1 c.2 none) x y
          { b with buffer := b.buffer.add ItemType.ironPlate 1, progress := 0 }) :=
        hwsi.setBuilding _ _ _
      have hblSI : (tileAt (setItem s c.1 c.2 none) x y).building = some b := by
        rw [tileAt_setItem]
        exact hbl
      have hbl' : (tileAt (setBuilding (setItem s c.1 c.2 none) x y
          { b with buffer := b.buffer.add ItemType.ironPlate 1, progress := 0 }) x y).building
          = some { b with buffer := b.buffer.add ItemType.ironPlate 1, progress := 0 } := by
        rw [tileAt_setBuilding_self _ hwsi hb]
      have hmv := measureM_setItem hw hbnd none
      rw [hit0] at hmv
      simp only [itemCount] at hmv
      have hmb := measureM_setBuilding_delta hwsi
        { b with buffer := b.buffer.add ItemType.ironPlate 1, progress := 0 } hb hblSI
      simp only at hmb
      have hadd := Buf.total_add b.buffer ItemType.ironPlate 1
      have hs1 : measureM (setBuilding (setItem s c.1 c.2 none) x y
          { b with buffer := b.buffer.add ItemType.ironPlate 1, progress := 0 })
          = measureM s := by
        omega
      exact (assemblerCraft_measure hw' hb hbl').trans hs1
  · rw [if_neg hcond]
    exact assemblerCraft_measure hw hb hbl

/-- The craft stage of the wire-mill branch (everything after plate pickup)
preserves the measure: a produced wire on the ground is paid for by one
copper plate leaving the buffer. -/
theorem wireMillCraft_measure {s1 : GameState} {x y : Int} {b1 : Building}
    (hw1 : Wf s1) (hb : inBounds s1 x y = true)
    (hbl : (tileAt s1 x y).building = some b1) :
    measureM
      (if 1 ≤ b1.buffer.copperPlate then
        if WIRE_MILL_TICKS ≤ b1.progress + 1 then
          if canPlaceItem (setBuilding s1 x y { b1 with progress := b1.progress + 1 })
              (stepInDir x y b1.dir).1 (stepInDir x y b1.dir).2 = true then
            bumpWiresCrafted (setBuilding (setItem (setBuilding s1 x y { b1 with progress := b1.progress + 1 }) (stepInDir x y b1.dir).1 (stepInDir x y b1.dir).2 (some ItemType.wire)) x y { b1 with buffer := b1.buffer.sub ItemType.copperPlate 1, progress := 0 })
          else setBuilding s1 x y { b1 with progress := b1.progress + 1 }
        else setBuilding s1 x y { b1 with progress := b1.progress + 1 }
      else s1)
      = measureM s1 := by
  have hm1 : measureM (setBuilding s1 x y { b1 with progress := b1.progress + 1 })
      = measureM s1 := measureM_setBuilding hw1 _ hb hbl rfl
  split
  · rename_i hplate
    split
    · split
      · rename_i hprog hcan
        have hw2 : Wf (setBuilding s1 x y { b1 with progress := b1.progress + 1 }) :=
          hw1.setBuilding x y _
        have hw3 : Wf (setItem (setBuilding s1 x y { b1 with progress := b1.progress + 1 })
            (stepInDir x y b1.dir).1 (stepInDir x y b1.dir).2 (some ItemType.wire)) :=
          hw2.setItem _ _ _
        have hm2 := measureM_setItem hw2 (canPlaceItem_iff.mp hcan).1 (some ItemType.wire)
        rw [(canPlaceItem_iff.mp hcan).2.2] at hm2
        simp only [itemCount] at hm2
        have hbl2 : (tileAt (setItem (setBuilding s1 x y { b1 with progress := b1.progress + 1 })
            (stepInDir x y b1.dir).1 (stepInDir x y b1.dir).2 (some ItemType.wire)) x y).building
            = some { b1 with progress := b1.progress + 1 } := by
          rw [tileAt_setItem, tileAt_setBuilding_self _ hw1 hb]
        have hm4 := measureM_setBuilding_delta hw3
          { b1 with buffer := b1.buffer.sub ItemType.copperPlate 1, progress := 0 } hb hbl2
        simp only at hm4
        have hsub : (b1.buffer.sub ItemType.copperPlate 1).total + 1 = b1.buffer.total :=
          Buf.total_sub b1.buffer ItemType.copperPlate 1 hplate
        rw [measureM_bumpWiresCrafted]
        omega
      · exact hm1
    · exact hm1
  · rfl

theorem wireMillTick_measure {s : GameState} {x y : Int} {b : Building} (hw : Wf s)
    (hb : inBounds s x y = true) (hbl : (tileAt s x y).building = some b) :
    measureM (wireMillTick s x y b) = measureM s := by
  simp only [wireMillTick]
  by_cases hcond : b.buffer.copperPlate < 1
  · rw [if_pos hcond]
    rcases hf : findNeighborItem s x y ItemType.copperPlate with _ | c
    · exact wireMillCraft_measure hw hb hbl
    · simp only
      obtain ⟨hbnd, it0, hit0, -⟩ := findNeighborAux_spec hf
      have hwsi : Wf (setItem s c.1 c.2 none) := hw.setItem _ _ _
      have hw' : Wf (setBuilding (setItem s c.1 c.2 none) x y
          { b with buffer := b.buffer.add ItemType.copperPlate 1, progress := 0 }) :=
        hwsi.setBuilding _ _ _
      have hblSI : (tileAt (setItem s c.1 c.2 none) x y).building = some b := by
        rw [tileAt_setItem]
        exact hbl
      have hbl' : (tileAt (setBuilding (setItem s c.1 c.2 none) x y
          { b with buffer := b.buffer.add ItemType.copperPlate 1, progress := 0 }) x y).building
          = some { b with buffer := b.buffer.add ItemType.copperPlate 1, progress := 0 } := by
        rw [tileAt_setBuilding_self _ hwsi hb]
      have hmv := measureM_setItem hw hbnd none
      rw [hit0] at hmv
      simp only [itemCount] at hmv
      have hmb := measureM_setBuilding_delta hwsi
        { b with buffer := b.buffer.add ItemType.copperPlate 1, progress := 0 } hb hblSI
      simp only at hmb
      have hadd := Buf.total_add b.buffer ItemType.copperPlate 1
      have hs1 : measureM (setBuilding (setItem s c.1 c.2 none) x y
          { b with buffer := b.buffer.add ItemType.copperPlate 1, progress := 0 })
          = measureM s := by
        omega
      exact (wireMillCraft_measure hw' hb hbl').trans hs1
  · rw [if_neg hcond]
    exact wireMillCraft_measure hw hb hbl

/-- Bridge between the phase-B measure and the phase-A measure. -/
theorem measureB_eq (s : GameState) (m : ItemGrid) :
    measureB (s, m) + (gridItemSum s.items : Int) = measureM s + gridItemSum m := by
  simp only [measureB, measureM, totalCount]
  push_cast
  ring

/-- Resolution of a belt item against an assembler or wire-mill destination:
the accepting building buffers the item (resetting progress) and the source
cell of the moved grid is cleared; a rejected item changes nothing. -/
theorem beltTile_feeder_resolution (s : GameState) (m : ItemGrid) (x y : Int)
    (it : ItemType) (b db : Building)
    (hit : itemAt s x y = some it)
    (hbl : (tileAt s x y).building = some b) (hbelt : b.btype = .belt)
    (hinb : inBounds s (stepInDir x y b.dir).1 (stepInDir x y b.dir).2 = true)
    (hdb : (tileAt s (stepInDir x y b.dir).1 (stepInDir x y b.dir).2).building
        = some db) :
    (db.btype = .assembler →
      ((it = .ironPlate ∧ db.buffer.ironPlate < 2) →
        beltTile s m x y
          = (setBuilding s (stepInDir x y b.dir).1 (stepInDir x y b.dir).2
              { db with buffer := db.buffer.add .ironPlate 1, progress := 0 },
             gridSet m x y none)) ∧
      (¬ (it = .ironPlate ∧ db.buffer.ironPlate < 2) →
        beltTile s m x y = (s, m))) ∧
    (db.btype = .wireMill →
      ((it = .copperPlate ∧ db.buffer.copperPlate < 1) →
        beltTile s m x y
          = (setBuilding s (stepInDir x y b.dir).1 (stepInDir x y b.dir).2
              { db with buffer := db.buffer.add .copperPlate 1, progress := 0 },
             gridSet m x y none)) ∧
      (¬ (it = .copperPlate ∧ db.buffer.copperPlate < 1) →
        beltTile s m x y = (s, m))) := by
  simp only [beltTile, hit, hbl, hbelt, hinb, hdb]
  refine ⟨?_, ?_⟩
  · intro has
    constructor
    · intro hacc
      simp [has, hacc]
    · intro hrej
      simp [has, hrej]
  · intro hwm
    constructor
    · intro hacc
      simp [hwm, hacc]
    · intro hrej
      rw [Nat.lt_one_iff] at hrej
      simp [hwm, hrej]

/-- One phase-B loop body preserves the phase-B measure, provided the moved
grid still holds the scanned tile's snapshot item (the not-yet-processed
invariant of the row-major scan). -/
theorem beltTile_measureB {s : GameState} {m : ItemGrid} {x y : Int}
    (hw : Wf s) (hm : GridDims m s.width s.height) (hb : inBounds s x y = true)
    (hmv : ∀ i, itemAt s x y = some i → gridGet m x y = some i) :
    measureB (beltTile s m x y) = measureB (s, m) := by
  rcases h1 : itemAt s x y with _ | item
  · rw [beltTile_skip_noitem h1]
  rcases h2 : (tileAt s x y).building with _ | bb
  · simp only [beltTile, h1, h2]
  by_cases h3 : bb.btype = BuildingType.belt
  · by_cases h4 : inBounds s (stepInDir x y bb.dir).1 (stepInDir x y bb.dir).2 = true
    · have hsrc : gridGet m x y = some item := hmv item h1
      have hne := stepInDir_ne hb h4
      have hdx := toNat_lt_of_inBounds_x h4
      have hdy := toNat_lt_of_inBounds_y h4
      have hsx := toNat_lt_of_inBounds_x hb
      have hsy := toNat_lt_of_inBounds_y hb
      have hGI := gridItemSum_gridSet hm none hsx hsy
      rw [hsrc] at hGI
      simp only [itemCount] at hGI
      have hclear : measureB (s, gridSet m x y none) = measureB (s, m) - 1 := by
        have hEL := measureB_eq s (gridSet m x y none)
        have hER := measureB_eq s m
        omega
      rcases h5 : (tileAt s (stepInDir x y bb.dir).1 (stepInDir x y bb.dir).2).building
          with _ | db
      · by_cases h6 : gridGet m (stepInDir x y bb.dir).1 (stepInDir x y bb.dir).2 = none
        · rw [(beltTile_move_dest s m x y item bb h1 h2 h3 h4 (Or.inl h5)).1 h6]
          have hA := gridItemSum_gridSet hm (some item) hdx hdy
          rw [h6] at hA
          have hB := gridItemSum_gridSet
            (show GridDims (gridSet m (stepInDir x y bb.dir).1 (stepInDir x y bb.dir).2
                (some item)) s.width s.height from hm.setCell _ _ _)
            none hsx hsy
          have hC : gridGet (gridSet m (stepInDir x y bb.dir).1
              (stepInDir x y bb.dir).2 (some item)) x y = gridGet m x y :=
            gridGet_gridSet_ne _ (hne.imp Ne.symm Ne.symm)
          rw [hC, hsrc] at hB
          simp only [itemCount] at hA hB
          have hEL := measureB_eq s (gridSet (gridSet m (stepInDir x y bb.dir).1
              (stepInDir x y bb.dir).2 (some item)) x y none)
          have hER := measureB_eq s m
          omega
        · rw [(beltTile_move_dest s m x y item bb h1 h2 h3 h4 (Or.inl h5)).2 h6]
      · have hres := beltTile_nonbelt_resolution s m x y item bb db h1 h2 h3 h4 h5
        have hfeed := beltTile_feeder_resolution s m x y item bb db h1 h2 h3 h4 h5
        have haccept : ∀ nb : Building,
            (beltTile s m x y
              = (setBuilding s (stepInDir x y bb.dir).1 (stepInDir x y bb.dir).2 nb,
                 gridSet m x y none)) →
            nb.buffer.total = db.buffer.total + 1 →
            measureB (beltTile s m x y) = measureB (s, m) := by
          intro nb hred hbuf
          rw [hred]
          have hMS := measureM_setBuilding_delta hw nb h4 h5
          have hEL := measureB_eq
            (setBuilding s (stepInDir x y bb.dir).1 (stepInDir x y bb.dir).2 nb)
            (gridSet m x y none)
          rw [setBuilding_items] at hEL
          have hER := measureB_eq s m
          omega
        cases hty : db.btype
        · -- mine destination: no move
          rw [(hres.2.2) hty]
        · -- belt destination
          by_cases h6 : gridGet m (stepInDir x y bb.dir).1 (stepInDir x y bb.dir).2 = none
          · rw [(beltTile_move_dest s m x y item bb h1 h2 h3 h4
              (Or.inr ⟨db, h5, hty⟩)).1 h6]
            have hA := gridItemSum_gridSet hm (some item) hdx hdy
            rw [h6] at hA
            have hB := gridItemSum_gridSet
              (show GridDims (gridSet m (stepInDir x y bb.dir).1 (stepInDir x y bb.dir).2
                  (some item)) s.width s.height from hm.setCell _ _ _)
              none hsx hsy
            have hC : gridGet (gridSet m (stepInDir x y bb.dir).1
                (stepInDir x y bb.dir).2 (some item)) x y = gridGet m x y :=
              gridGet_gridSet_ne _ (hne.imp Ne.symm Ne.symm)
            rw [hC, hsrc] at hB
            simp only [itemCount] at hA hB
            have hEL := measureB_eq s (gridSet (gridSet m (stepInDir x y bb.dir).1
                (stepInDir x y bb.dir).2 (some item)) x y none)
            have hER := measureB_eq s m
            omega
          · rw [(beltTile_move_dest s m x y item bb h1 h2 h3 h4
              (Or.inr ⟨db, h5, hty⟩)).2 h6]
        · -- furnace destination
          by_cases hacc : (item = ItemType.ironOre ∨ item = ItemType.copperOre) ∧
              db.buffer.ironOre = 0 ∧ db.buffer.copperOre = 0
          · exact haccept _ ((hres.2.1 hty).1 hacc) (Buf.total_add db.buffer item 1)
          · rw [(hres.2.1 hty).2 hacc]
        · -- assembler destination
          by_cases hacc : item = ItemType.ironPlate ∧ db.buffer.ironPlate < 2
          · exact haccept _ ((hfeed.1 hty).1 hacc)
              (Buf.total_add db.buffer ItemType.ironPlate 1)
          · rw [(hfeed.1 hty).2 hacc]
        · -- wire mill destination
          by_cases hacc : item = ItemType.copperPlate ∧ db.buffer.copperPlate < 1
          · exact haccept _ ((hfeed.2 hty).1 hacc)
              (Buf.total_add db.buffer ItemType.copperPlate 1)
          · rw [(hfeed.2 hty).2 hacc]
        · -- hub destination
          rw [hres.1 (Or.inr hty)]
          have hEL := measureB_eq { s with inventory := s.inventory.add item 1 }
            (gridSet m x y none)
          have hER := measureB_eq s m
          have hMS := measureM_invAdd s item
          simp only at hEL
          omega
        · -- chest destination
          rw [hres.1 (Or.inl hty)]
          have hEL := measureB_eq { s with inventory := s.inventory.add item 1 }
            (gridSet m x y none)
          have hER := measureB_eq s m
          have hMS := measureM_invAdd s item
          simp only at hEL
          omega
    · simp only [beltTile, h1, h2, h3]
      rw [if_neg h4]
      simp
  · simp only [beltTile, h1, h2]
    rw [if_neg h3]

theorem phaseATile_measure {s : GameState} {x y : Int} (hw : Wf s)
    (hb : inBounds s x y = true) :
    measureM (phaseATile s x y) = measureM s := by
  simp only [phaseATile]
  rcases hbl : (tileAt s x y).building with _ | b
  · rfl
  · simp only
    cases hty : b.btype
    · exact mineTick_measure hw hb hbl
    · exact rfl
    · exact furnaceTick_measure hw hb hbl
    · exact assemblerTick_measure hw hb hbl
    · exact wireMillTick_measure hw hb hbl
    · exact hubTick_measure hw
    · exact rfl

/-- The phase-A fold preserves both the measure and well-formedness. -/
theorem foldA_measure (L : List (Int × Int)) (s : GameState) (hw : Wf s)
    (hL : ∀ p ∈ L, inBounds s p.1 p.2 = true) :
    measureM (L.foldl (fun s c => phaseATile s c.1 c.2) s) = measureM s
    ∧ Wf (L.foldl (fun s c => phaseATile s c.1 c.2) s) := by
  induction L generalizing s with
  | nil => exact ⟨rfl, hw⟩
  | cons p L ih =>
    simp only [List.foldl_cons]
    have h1 := phaseATile_measure hw (hL p (List.mem_cons_self p L))
    have h2 := phaseATile_wf p.1 p.2 hw
    have hcore := phaseATile_core s p.1 p.2
    have hL' : ∀ q ∈ L, inBounds (phaseATile s p.1 p.2) q.1 q.2 = true := by
      intro q hq
      rw [inBounds_congr q.1 q.2 hcore.1 hcore.2.1]
      exact hL q (List.mem_cons_of_mem p hq)
    obtain ⟨hm, hwf⟩ := ih (phaseATile s p.1 p.2) h2 hL'
    exact ⟨hm.trans h1, hwf⟩

theorem phaseA_measure {s : GameState} (hw : Wf s) :
    measureM (phaseA s) = measureM s ∧ Wf (phaseA s) :=
  foldA_measure (coords s.width s.height) s hw (fun _ hp => mem_coords_inBounds hp)

/-- The phase-B fold preserves the phase-B measure when the scan list is
duplicate-free, stays in bounds and still mirrors the snapshot on every
unprocessed tile. -/
theorem foldB_measure (L : List (Int × Int)) (sm : GameState × ItemGrid)
    (hw : Wf sm.1) (hm : GridDims sm.2 sm.1.width sm.1.height)
    (hL : ∀ p ∈ L, inBounds sm.1 p.1 p.2 = true)
    (hnd : L.Nodup)
    (hinv : ∀ p ∈ L, ∀ i, itemAt sm.1 p.1 p.2 = some i →
        gridGet sm.2 p.1 p.2 = some i) :
    measureB (foldB L sm) = measureB sm := by
  induction L generalizing sm with
  | nil => rfl
  | cons p L ih =>
    rw [foldB_cons]
    have hpb : inBounds sm.1 p.1 p.2 = true := hL p (List.mem_cons_self p L)
    have hstep : measureB (beltTile sm.1 sm.2 p.1 p.2) = measureB sm :=
      beltTile_measureB hw hm hpb (hinv p (List.mem_cons_self p L))
    have hcore := beltTile_core sm.1 sm.2 p.1 p.2
    have hit := beltTile_items sm.1 sm.2 p.1 p.2
    have hm' : GridDims (beltTile sm.1 sm.2 p.1 p.2).2
        (beltTile sm.1 sm.2 p.1 p.2).1.width
        (beltTile sm.1 sm.2 p.1 p.2).1.height := by
      rw [hcore.1, hcore.2.1]
      exact beltTile_moved_dims p.1 p.2 hm
    refine ((ih _ (beltTile_wf sm.2 p.1 p.2 hw) hm' ?_ hnd.of_cons ?_).trans hstep)
    · intro q hq
      rw [inBounds_congr q.1 q.2 hcore.1 hcore.2.1]
      exact hL q (List.mem_cons_of_mem p hq)
    · intro q hq i hi
      have hqb : inBounds sm.1 q.1 q.2 = true := hL q (List.mem_cons_of_mem p hq)
      have hi0 : itemAt sm.1 q.1 q.2 = some i := by
        unfold itemAt at hi ⊢
        rw [hit] at hi
        exact hi
      have hq0 : gridGet sm.2 q.1 q.2 = some i :=
        hinv q (List.mem_cons_of_mem p hq) i hi0
      have hpq : p ≠ q := by
        intro h
        exact (List.nodup_cons.mp hnd).1 (h ▸ hq)
      have hnepq := pair_ne_toNat hpb hqb hpq
      rcases beltTile_moved_spec sm.1 sm.2 p.1 p.2 q.1 q.2 hm hpb with h | h
      · rw [h]
        exact hq0
      · obtain ⟨i', bb, hi', hbb, hbt, hcase⟩ := h
        rcases hcase with ⟨ha, hc, _⟩ | ⟨ha, hc, _, hdn, _⟩
        · exfalso
          rcases hnepq with hne | hne
          · exact hne ha.symm
          · exact hne hc.symm
        · exfalso
          rw [gridGet_congr ha hc, hdn] at hq0
          exact Option.noConfusion hq0

theorem phaseB_measure {s : GameState} (hw : Wf s) :
    measureB (phaseB s) = measureM s := by
  have h := foldB_measure (coords s.width s.height) (s, s.items) hw hw.2
    (fun _ hp => mem_coords_inBounds hp) (coords_nodup _ _)
    (fun _ _ _ hi => hi)
  exact h.trans (measureB_pair s)

/-- Installing a new item grid turns the phase-A measure into the phase-B
measure. -/
theorem measureM_withItems (a : GameState) (m : ItemGrid) :
    measureM { a with items := m } = measureB (a, m) := by
  simp only [measureM, measureB, totalCount]
  push_cast
  ring

/-- A full tick preserves the conservation measure on well-formed worlds. -/
theorem stepGame_measure {w : GameState} (hw : Wf w) :
    measureM (stepGame w) = measureM w := by
  obtain ⟨hA, hwA⟩ := phaseA_measure (show Wf { w with tick := w.tick + 1 } from hw)
  have hB := phaseB_measure hwA
  have h1 : measureM (stepGame w)
      = measureB (phaseB (phaseA { w with tick := w.tick + 1 })) :=
    measureM_withItems _ _
  rw [h1, hB, hA]
  rfl

/-- **C1 (counterexample).** A tick with no mine emission is claimed to keep
the total item count constant, but an assembler finishing a gear consumes
two buffered plates while emitting a single gear: the total drops by one
although no ore was mined. -/
theorem step_item_conservation_cex :
    totalCount (stepGame gearWorld) + 1 = totalCount gearWorld ∧
    (stepGame gearWorld).stats.ironMined = gearWorld.stats.ironMined ∧
    (stepGame gearWorld).stats.copperMined = gearWorld.stats.copperMined ∧
    (stepGame gearWorld).stats.gearsCrafted = gearWorld.stats.gearsCrafted + 1 := by
  decide

/-- **C1 (amended).** On a well-formed world a tick conserves the total item
count (ground items + building buffers + inventory) up to its production
events: it grows by one for each successful mine emission (the tick's
increase of `ironMined + copperMined`) and shrinks by one for each completed
gear craft (the tick's increase of `gearsCrafted`); hub/chest/belt-edge
credits and all pickups merely redistribute, with no item duplicated or
dropped. -/
theorem step_item_conservation (w : GameState) (hw : Wf w) :
    totalCount (stepGame w) + (stepGame w).stats.gearsCrafted
        + w.stats.ironMined + w.stats.copperMined
      = totalCount w + w.stats.gearsCrafted
        + (stepGame w).stats.ironMined + (stepGame w).stats.copperMined := by
  have h := stepGame_measure hw
  simp only [measureM] at h
  omega

/-- Concrete instantiation of the amended conservation law at `gearWorld`. -/
theorem step_item_conservation_witness :
    Wf gearWorld ∧
    (totalCount (stepGame gearWorld) + (stepGame gearWorld).stats.gearsCrafted
        + gearWorld.stats.ironMined + gearWorld.stats.copperMined
      = totalCount gearWorld + gearWorld.stats.gearsCrafted
        + (stepGame gearWorld).stats.ironMined
        + (stepGame gearWorld).stats.copperMined) :=
  ⟨by decide, step_item_conservation gearWorld (by decide)⟩

end GPTorio
